import Mathlib

/-!
Verification of the resumable entity-clustering pipeline of the MCP server
analysis backend.

The embedding below is a shallow model of two source files:

* `backend/app/services/clustering/optimized_clustering.py`
  (class `OptimizedClusteringService`): the two-phase clustering algorithm
  `cluster_servers`, the per-batch similarity computation
  `calculate_batch_similarities`, the entity-name extraction
  `extract_entity_name`, and the nearest-neighbour query
  `get_similar_servers`.
* `backend/app/utils/progress_manager.py` (class `ProgressManager`): the
  progress ledger (`get_progress`, `update_progress`, `complete_stage`),
  blob integrity checking (`verify_cache_integrity`, `reset_progress`),
  together with the startup hook of `backend/app/main.py` that resets all
  progress when integrity verification fails.

Modelling conventions:

* Machine text vectorization (scikit-learn `TfidfVectorizer`) is an external
  library, not repository code.  Its output rows are l2-normalized
  non-negative sparse vectors, and `sklearn.metrics.pairwise.cosine_similarity`
  of l2-normalized rows is exactly their dot product.  We therefore model a
  run of the pipeline as parametrized by the title vector `tv i` and the
  description vector `dv i` of each input record `i` (the vectors the fitted
  vectorizers produce for that record's preprocessed title and description),
  and every cosine similarity in the source becomes a rational dot product.
  Records with equal title (resp. description) text necessarily receive equal
  vectors, so textual identity is expressed as vector equality.
* Python dicts are modelled as association lists that preserve insertion
  order, exactly as CPython dicts do; `dict.get` is an `Option`-valued lookup.
* The `ThreadPoolExecutor`/`as_completed` nondeterminism of Phase 2 is
  modelled by a `batchOrder : List Nat` parameter: each completed batch's
  qualifying pairs are applied as a block, blocks in an arbitrary order.
  Inside a block the pairs sit in Python dict insertion order (row-major over
  the batch), exactly as the source builds and iterates the `results` dict.
* The filesystem used by `ProgressManager` is modelled as an ideal store: a
  possibly-absent, possibly-unparseable progress file plus one
  possibly-absent, possibly-unparseable blob per stage.
-/

namespace MCPCluster

/-! ## Definitions: the embedded program -/

/-- A clustering input record: the fields of `ServerMetrics`
(`backend/app/models/server.py`) that `cluster_servers` reads and writes.
`cluster_id` is `None` before clustering. -/
structure SRec where
  server_id : String
  title : String
  description : String
  cluster_id : Option Nat := none
  deriving Repr, DecidableEq, Inhabited

/-- The mutable `clusters_map` of `cluster_servers`: a partial map from record
index to cluster id (a Python dict keyed by `int`). -/
def CMap := Nat → Option Nat

/-- Write-one-key update of a `CMap` (`clusters_map[k] = v`). -/
def mapUpd (m : CMap) (k v : Nat) : CMap := fun x => if x = k then some v else m x

/-- Dot product of two rational vectors (cosine similarity of l2-normalized
rows, as computed by `cosine_similarity` on `TfidfVectorizer` output). -/
def dotQ : List ℚ → List ℚ → ℚ
  | a :: as, b :: bs => a * b + dotQ as bs
  | _, _ => 0

/-- Title-only cosine similarity used by Phase 1
(`initial_similarities[i][j]`, optimized_clustering.py line 152). -/
def titleSim (tv : Nat → List ℚ) (i j : Nat) : ℚ := dotQ (tv i) (tv j)

/-- Combined similarity of `calculate_batch_similarities`
(optimized_clustering.py lines 95-98):
`0.6 * title_similarities[i][j] + 0.4 * desc_similarities[i][j]`. -/
def combSim (tv dv : Nat → List ℚ) (i j : Nat) : ℚ :=
  mkRat 3 5 * dotQ (tv i) (tv j) + mkRat 2 5 * dotQ (dv i) (dv j)

/-- Inner loop body of Phase 1 (optimized_clustering.py lines 167-169):
`for j in similar_indices: if i != j: clusters_map[j] = clusters_map[i]`. -/
def p1body (i : Nat) (m : CMap) (j : Nat) : CMap :=
  if i = j then m else mapUpd m j ((m i).getD 0)

/-- One iteration of the Phase 1 outer loop (optimized_clustering.py lines
157-169): assign a fresh cluster id to record `i` if it has none, then pull
every title-similar record `j` into `i`'s cluster.  The state is
`(clusters_map, next_cluster_id)`. -/
def phase1Row (θ : ℚ) (tv : Nat → List ℚ) (n i : Nat) (st : CMap × Nat) :
    CMap × Nat :=
  let st' : CMap × Nat :=
    if (st.1 i).isSome then st else (mapUpd st.1 i st.2, st.2 + 1)
  let sims := (List.range n).filter (fun j => decide (θ ≤ titleSim tv i j))
  (sims.foldl (p1body i) st'.1, st'.2)

/-- Phase 1, the fast initial title-based clustering pass
(optimized_clustering.py lines 154-169), starting from an empty map and
`next_cluster_id = 0` (a fresh service instance). -/
def phase1 (θ : ℚ) (tv : Nat → List ℚ) (n : Nat) : CMap × Nat :=
  (List.range n).foldl (fun st i => phase1Row θ tv n i st) (fun _ => none, 0)

/-- The indices of the batch `servers[start:start+size]`
(`calculate_batch_similarities`, optimized_clustering.py lines 75-76). -/
def batchIdxs (n start size : Nat) : List Nat :=
  ((List.range n).drop start).take size

/-- One row of the qualifying pair dict built by
`calculate_batch_similarities` (optimized_clustering.py lines 91-100): for a
fixed batch member `i`, the entries `(id_i, id_j, score)` for every batch
member `j` with a distinct `server_id` and combined score at least the
threshold, in ascending `j` order (Python dict insertion order). -/
def qpRow (θ : ℚ) (servers : List SRec) (tv dv : Nat → List ℚ)
    (idxs : List Nat) (i : Nat) : List (String × String × ℚ) :=
  idxs.filterMap (fun j =>
    if (servers.getD i default).server_id ≠ (servers.getD j default).server_id
        ∧ θ ≤ combSim tv dv i j then
      some ((servers.getD i default).server_id,
            (servers.getD j default).server_id, combSim tv dv i j)
    else none)

/-- All qualifying pairs of one batch, in the insertion order of the `results`
dict of `calculate_batch_similarities`: row-major over the batch. -/
def qualPairs (θ : ℚ) (servers : List SRec) (tv dv : Nat → List ℚ)
    (start size : Nat) : List (String × String × ℚ) :=
  let idxs := batchIdxs servers.length start size
  idxs.flatMap (qpRow θ servers tv dv idxs)

/-- Index of the first record with the given id:
`next(i for i, s in enumerate(servers) if s.server_id == id1)`
(optimized_clustering.py lines 191-192). -/
def idIdx (servers : List SRec) (id : String) : Nat :=
  servers.findIdx (fun s => decide (s.server_id = id))

/-- Applying one collected batch result to the shared cluster map
(optimized_clustering.py lines 190-194): for each emitted pair, re-check the
threshold and perform the plain assignment
`clusters_map[idx2] = clusters_map[idx1]`. -/
def p2body (servers : List SRec) (θ : ℚ) (m : CMap) (p : String × String × ℚ) :
    CMap :=
  if θ ≤ p.2.2 then mapUpd m (idIdx servers p.2.1) ((m (idIdx servers p.1)).getD 0)
  else m

/-- Apply a list of qualifying pairs in order to the cluster map. -/
def applyPairs (servers : List SRec) (θ : ℚ) (m : CMap)
    (ps : List (String × String × ℚ)) : CMap :=
  ps.foldl (p2body servers θ) m

/-- Phase 2, the batched refinement (optimized_clustering.py lines 171-197):
batch `b` covers indices `[100*b, 100*b+100)`; completed batches are applied
in the (nondeterministic) order `batchOrder`.  A real run uses a permutation
of `List.range ((servers.length + 99) / 100)`. -/
def phase2 (θ : ℚ) (servers : List SRec) (tv dv : Nat → List ℚ)
    (batchOrder : List Nat) (m : CMap) : CMap :=
  batchOrder.foldl
    (fun mm b => applyPairs servers θ mm (qualPairs θ servers tv dv (100 * b) 100))
    m

/-- The generic suffix list of `extract_entity_name`
(optimized_clustering.py lines 55-58). -/
def commonSuffixes : List String :=
  ["server", "mcp", "helper", "tools", "api", "service",
   "platform", "framework", "library", "sdk", "client"]

/-- The entity-name extraction of `extract_entity_name`
(optimized_clustering.py lines 53-67): strip the first generic suffix that the
lower-cased title ends with (preceded by a space); otherwise return the first
word when the title has several words, else the whole title. -/
def extract_entity_name (title : String) : String :=
  let tl := title.toLower
  match commonSuffixes.find? (fun suf => tl.endsWith (" " ++ suf)) with
  | some suf => (title.take (title.length - (suf.length + 1))).trim
  | none =>
    let words := (title.splitOn " ").filter (fun w => w ≠ "")
    if words.length > 1 then words.getD 0 "" else title

/-- Per-cluster data kept in `self.cluster_data`
(optimized_clustering.py lines 206-211). -/
structure ClusterInfo where
  entity_name : String
  servers : List String
  deriving Repr, DecidableEq, Inhabited

/-- Python dict assignment `d[k] = v` on a string-keyed association list:
overwrite in place if the key exists, else append. -/
def dictPut (d : List (String × Nat)) (k : String) (v : Nat) :
    List (String × Nat) :=
  match d with
  | [] => [(k, v)]
  | (k', v') :: rest =>
    if k' = k then (k, v) :: rest else (k', v') :: dictPut rest k v

/-- Python `dict.get(k)` as an `Option`-valued lookup. -/
def dictGet? {β : Type} (d : List (String × β)) (k : String) : Option β :=
  (d.find? (fun p => decide (p.1 = k))).map (fun p => p.2)

/-- The `cluster_data` update of one result-building iteration
(optimized_clustering.py lines 206-211): create the entry (with the entity
name of the current record) if the cluster id is new, then append the record's
id to the member list. -/
def upsertMember (cd : List (Nat × ClusterInfo)) (cid : Nat)
    (ename sid : String) : List (Nat × ClusterInfo) :=
  match cd with
  | [] => [(cid, ⟨ename, [sid]⟩)]
  | (k, v) :: rest =>
    if k = cid then (k, ⟨v.entity_name, v.servers ++ [sid]⟩) :: rest
    else (k, v) :: upsertMember rest cid ename sid

/-- The result-building loop of `cluster_servers`
(optimized_clustering.py lines 199-211): walk the records in order, look the
index up in the cluster map, record the assignment in `self.clusters`
(keyed by `server_id`), set the record's `cluster_id`, and add the record to
its cluster's member list in `self.cluster_data`.  Returns the updated
records, the `clusters` dict and the `cluster_data` dict. -/
def buildLoop : List SRec → Nat → CMap → List (String × Nat) →
    List (Nat × ClusterInfo) →
    List SRec × List (String × Nat) × List (Nat × ClusterInfo)
  | [], _, _, cl, cd => ([], cl, cd)
  | s :: rest, i, m, cl, cd =>
    let cid := (m i).getD 0
    let cl' := dictPut cl s.server_id cid
    let cd' := upsertMember cd cid ((extract_entity_name s.title).toLower)
      s.server_id
    let r := buildLoop rest (i + 1) m cl' cd'
    ({ s with cluster_id := some cid } :: r.1, r.2.1, r.2.2)

/-- The payload saved to (and restored from) the `clustering` stage blob
(optimized_clustering.py lines 119-121 and 214-218). -/
structure Cached where
  clusters : List (String × Nat)
  cluster_data : List (Nat × ClusterInfo)
  next_cluster_id : Nat
  deriving Repr, DecidableEq

/-- The observable outcome of one `cluster_servers` call: the updated records,
the service state (`self.clusters`, `self.cluster_data`,
`self.next_cluster_id`) and the blob written to the `clustering` stage
(`none` on the restore path, which writes nothing). -/
structure RunResult where
  servers : List SRec
  clusters : List (String × Nat)
  cluster_data : List (Nat × ClusterInfo)
  next_cluster_id : Nat
  saved : Option Cached
  deriving Repr, DecidableEq

/-- `OptimizedClusteringService.cluster_servers`
(optimized_clustering.py lines 107-233) for a fresh service instance.
`cache` is the content of the `clustering` stage blob (`None` when absent; an
actually-written blob is a non-empty dict, hence truthy, so a present blob
always takes the restore branch of lines 116-128).  On a cache miss the
two-phase computation runs and the result is saved (lines 130-218).
Vectorizer fitting and the `vectorizers`/`visualization`/`summaries` blobs
have no effect on the returned assignment and are not modelled; the compute
branch of this model covers the runs whose vectorizer fit succeeds — on an
empty corpus the code raises at the `fit` call (line 137) and aborts before
the `clustering` blob is written at line 214, so a `clustering` checkpoint
only ever comes from a computing run on a non-empty record list, and the
restores below use checkpoints reachable that way. -/
def clusterServers (θ : ℚ) (cache : Option Cached) (servers : List SRec)
    (tv dv : Nat → List ℚ) (batchOrder : List Nat) : RunResult :=
  match cache with
  | some c =>
    { servers := servers.map
        (fun s => { s with cluster_id := dictGet? c.clusters s.server_id }),
      clusters := c.clusters,
      cluster_data := c.cluster_data,
      next_cluster_id := c.next_cluster_id,
      saved := none }
  | none =>
    let st := phase1 θ tv servers.length
    let m := phase2 θ servers tv dv batchOrder st.1
    let bl := buildLoop servers 0 m [] []
    { servers := bl.1,
      clusters := bl.2.1,
      cluster_data := bl.2.2,
      next_cluster_id := st.2,
      saved := some ⟨bl.2.1, bl.2.2, st.2⟩ }

/-! ## Similarity query (`get_similar_servers`) -/

/-- A JSON-style field value of a similarity result dict. -/
inductive JVal where
  | s (v : String)
  | q (v : ℚ)
  deriving Repr, DecidableEq

/-- The result dict literal of `get_similar_servers`
(optimized_clustering.py lines 496-504 and 525-533): exactly the four keys
`server_id`, `title`, `description`, `similarity_score`, in both branches. -/
def entryOf (srv : SRec) (sim : ℚ) : List (String × JVal) :=
  [("server_id", JVal.s srv.server_id), ("title", JVal.s srv.title),
   ("description", JVal.s srv.description),
   ("similarity_score", JVal.q sim)]

/-- The `similarity_score` field of a result dict (0 if absent). -/
def entryScore (e : List (String × JVal)) : ℚ :=
  match (e.find? (fun p => decide (p.1 = "similarity_score"))).map
      (fun p => p.2) with
  | some (JVal.q v) => v
  | _ => 0

/-- Descending comparison on (index, score) pairs: Python
`similarities.sort(key=lambda x: x[1], reverse=True)`. -/
def descBy (x y : Nat × ℚ) : Bool := decide (y.2 ≤ x.2)

/-- `OptimizedClusteringService.get_similar_servers`
(optimized_clustering.py lines 418-533).  An unknown `server_id` raises
`ValueError` in the source, modelled as `none`.  The vectorizer
reload/refit (lines 439-462) only reconstructs the externally-fitted
vectorizers and is absorbed into the `tv`/`dv` parameters; the
re-clustering fallback for unassigned records (lines 436-437) merely changes
the `cluster_id` fields the ranking reads and is not modelled.  Both
branches rank candidates by the combined `0.6*title + 0.4*description`
cosine similarity, sort descending (Python's stable sort, modelled by
`mergeSort`), truncate to `top_n` and emit the four-field dicts. -/
def get_similar_servers (servers : List SRec) (tv dv : Nat → List ℚ)
    (sid : String) (top_n : Nat) : Option (List (List (String × JVal))) :=
  match servers.findIdx? (fun s => decide (s.server_id = sid)) with
  | none => none
  | some ti =>
    let target := servers.getD ti default
    let mates := (List.range servers.length).filter (fun i =>
      decide ((servers.getD i default).cluster_id = target.cluster_id
        ∧ (servers.getD i default).server_id ≠ sid))
    let cands :=
      if mates.isEmpty then
        (List.range servers.length).filter (fun i =>
          decide ((servers.getD i default).server_id ≠ sid))
      else mates
    let sims := cands.map (fun i => (i, combSim tv dv ti i))
    let sorted := sims.mergeSort descBy
    some ((sorted.take top_n).map
      (fun p => entryOf (servers.getD p.1 default) p.2))

/-- Modelled from the spec: the global-scan top-N ranking the spec prescribes
for the singleton fallback of `get_similar` — scan all other servers with
the same combined 0.6/0.4 metric, sort by descending similarity, return the
top N.  Stated from the spec's words for the C8 refinement comparison. -/
def globalTopN (servers : List SRec) (tv dv : Nat → List ℚ) (sid : String)
    (ti top_n : Nat) : List (List (String × JVal)) :=
  (((((List.range servers.length).filter (fun i =>
        decide ((servers.getD i default).server_id ≠ sid))).map
      (fun i => (i, combSim tv dv ti i))).mergeSort descBy).take top_n).map
    (fun p => entryOf (servers.getD p.1 default) p.2)

/-! ## Concrete runs used to settle the order-dependence claims

Vectors below are representative l2-normalized non-negative TF-IDF rows,
written sparsely (a trailing block of zero coordinates is omitted; `dotQ`
treats the missing tail as zeros). -/

/-- Four records for the C1 scenario, in list order `w, x, z, y` (a single
Phase 2 batch).  The similarity graph is the path `w — x — y — z`: the claim's
triple is `a := w` (index 0), `b := x` (index 1), `c := y` (index 3), with
`z` (index 2) the fourth record whose merge overwrites `y`'s cluster after
`x` pulled `y` in, and before the `(y,x)` pair re-points `x`. -/
def c1Servers : List SRec :=
  [⟨"w", "Tw", "Dw", none⟩, ⟨"x", "Tx", "Dx", none⟩,
   ⟨"z", "Tz", "Dz", none⟩, ⟨"y", "Ty", "Dy", none⟩]

/-- Title vectors for C1 (unit, non-negative): pairwise title similarities
are `sim(w,x) = 2/3`, `sim(x,y) = 8/15`, `sim(z,y) = 3/5` and 0 otherwise —
all below the 0.7 threshold, so Phase 1 leaves four singleton clusters. -/
def c1tv : Nat → List ℚ := fun i =>
  if i = 0 then [mkRat 1 1]
  else if i = 1 then [mkRat 2 3, mkRat 2 3, mkRat 0 1, mkRat 1 3]
  else if i = 2 then [mkRat 0 1, mkRat 0 1, mkRat 1 1]
  else if i = 3 then [mkRat 0 1, mkRat 4 5, mkRat 3 5]
  else []

/-- Description vectors for C1: all descriptions are maximally similar, so
the combined similarities are `comb(w,x) = 4/5`, `comb(x,y) = 18/25`,
`comb(z,y) = 19/25` (all at least 0.7) and `2/5 < 0.7` for the other pairs. -/
def c1dv : Nat → List ℚ := fun _ => [mkRat 1 1]

/-- The C1 run: four records fit in one batch, so `[0]` is the only possible
batch completion order, and within the batch the pairs are applied in the
`results` dict's insertion order (row-major), which `qualPairs` reproduces —
this run is the deterministic execution of the code on this input. -/
def c1Run : RunResult :=
  clusterServers (mkRat 7 10) none c1Servers c1tv c1dv [0]

/-- Filler records for the cross-batch C2 scenario: distinct ids and titles,
vectorized to zero rows (e.g. stop-word-only text). -/
def mkFiller (i : Nat) : SRec :=
  ⟨"f" ++ toString i, "Tf " ++ toString i, "Df " ++ toString i, none⟩

/-- 101 records: index 1 (`a`) and index 100 (`b`) have identical titles and
identical descriptions, but land in different Phase 2 batches. -/
def c2Servers : List SRec :=
  [⟨"x", "Tx", "Dx", none⟩, ⟨"a", "Ta", "Da", none⟩]
  ++ (List.range 98).map (fun i => mkFiller (i + 2))
  ++ [⟨"b", "Ta", "Da", none⟩]

/-- Title vectors for C2: `a` and `b` share the unit vector of the common
title; `x`'s title similarity to them is `3/5 < 0.7`. -/
def c2tv : Nat → List ℚ := fun i =>
  if i = 0 then [mkRat 3 5, mkRat 4 5]
  else if i = 1 then [mkRat 1 1]
  else if i = 100 then [mkRat 1 1]
  else []

/-- Description vectors for C2: `x`, `a`, `b` have identical descriptions. -/
def c2dv : Nat → List ℚ := fun i =>
  if i = 0 ∨ i = 1 ∨ i = 100 then [mkRat 1 1] else []

/-- The C2 run: natural batch application order `[0, 1]`. -/
def c2Run : RunResult :=
  clusterServers (mkRat 7 10) none c2Servers c2tv c2dv [0, 1]

set_option maxRecDepth 10000 in
/-- C4 counterexample: a run of `cluster_servers` that restores a `clustering`
checkpoint written by an earlier computing run over a different record set
(here: a run on the single record `t`, whose non-empty corpus vectorizes
fine and which therefore reaches the save at line 214) produces a
`cluster_data` whose only member list is `["t"]`: the input record `s` is a
member of no cluster at all, so not every run of `cluster_servers`
partitions its input into the clusters of `cluster_data`. -/
def c4Run : RunResult :=
  clusterServers (mkRat 7 10)
    (clusterServers (mkRat 7 10) none [⟨"t", "T", "D", none⟩]
      (fun _ => [mkRat 1 1]) (fun _ => [mkRat 1 1]) [0]).saved
    [⟨"s", "T", "D", none⟩] (fun _ => [mkRat 1 1]) (fun _ => [mkRat 1 1]) [0]

/-! ## Phase 2 fold lemmas -/

/-- Two cluster-map positions that hold the same, present, cluster id. -/
def Esync (m : CMap) (i₀ j₀ : Nat) : Prop :=
  ∃ c, m i₀ = some c ∧ m j₀ = some c

/-- Concrete instance for the C2 amended witness: two identical records in
one batch, threshold 0.7, unit vectors. -/
def c2wServers : List SRec :=
  [⟨"a", "Ta", "Da", none⟩, ⟨"b", "Ta", "Da", none⟩]

/-- Concrete instance for the C3 witness: two records, a computing first run
followed by a restoring second run. -/
def c3Servers : List SRec :=
  [⟨"a", "Alpha Server", "alpha docs", none⟩, ⟨"b", "Beta Server", "beta docs", none⟩]

/-- Concrete instance for the C9 witness: a restored checkpoint that knows
only the id `other`, applied to a single record with id `s`. -/
def c9Cache : Cached :=
  { clusters := [("other", 0)],
    cluster_data := [(0, { entity_name := "other", servers := ["other"] })],
    next_cluster_id := 1 }

/-- Concrete instance for the C7 witness: two records in one cluster. -/
def c7Servers : List SRec :=
  [⟨"a", "Ta", "Da", some 0⟩, ⟨"b", "Tb", "Db", some 0⟩]

/-- Concrete records for C8: target `a` is alone in cluster 0; `b` and `c`
share cluster 1. -/
def c8Servers : List SRec :=
  [⟨"a", "Ta", "Da", some 0⟩, ⟨"b", "Tb", "Db", some 1⟩,
   ⟨"c", "Tc", "Dc", some 1⟩]

/-! ## Progress manager (`backend/app/utils/progress_manager.py`) -/

/-- The progress ledger record (the JSON object read and written by
`ProgressManager`, progress_manager.py lines 42-48). -/
structure Progress where
  current_stage : Option String
  completed_stages : List String
  last_updated : Option String
  processed_count : Nat
  total_count : Nat
  deriving Repr, DecidableEq

/-- Content of the progress file: either a parseable ledger or bytes on which
`json.load` (or the subsequent key access) raises. -/
inductive PFile where
  | good (p : Progress)
  | bad
  deriving Repr, DecidableEq

/-- Content of one stage's intermediate blob `<stage>_result.json`: either
parseable JSON or bytes on which `json.load` raises. -/
inductive Blob where
  | parsable
  | unparsable
  deriving Repr, DecidableEq

/-- The filesystem slice `ProgressManager` touches: the optional progress
file and one optional blob per stage name. -/
structure Store where
  progressFile : Option PFile
  blobs : String → Option Blob

/-- The initial ledger returned when the progress file is absent or unreadable
(progress_manager.py lines 42-48 and 56-62). -/
def initialProgress : Progress :=
  { current_stage := none, completed_stages := [], last_updated := none,
    processed_count := 0, total_count := 0 }

/-- `ProgressManager.get_progress` (progress_manager.py lines 37-62): return
the parsed ledger; an absent file, or any exception while reading or parsing
it, yields the initial state. -/
def getProgress (s : Store) : Progress :=
  match s.progressFile with
  | none => initialProgress
  | some PFile.bad => initialProgress
  | some (PFile.good p) => p

/-- `ProgressManager.update_progress` (progress_manager.py lines 64-79):
when the stage is not yet completed, set it as current stage, record the
counts, timestamp, and write the file; otherwise write nothing.  `now` is the
ambient `datetime.now().isoformat()`. -/
def updateProgress (s : Store) (stage : String) (processed total : Nat)
    (now : String) : Store :=
  let p := getProgress s
  if stage ∈ p.completed_stages then s
  else
    { s with progressFile := some (PFile.good
        { p with current_stage := some stage, processed_count := processed,
                 total_count := total, last_updated := some now }) }

/-- `ProgressManager.complete_stage` (progress_manager.py lines 81-95):
when the stage is not yet completed, append it to the completed list, clear
the current stage, timestamp, and write the file; otherwise write nothing. -/
def completeStage (s : Store) (stage : String) (now : String) : Store :=
  let p := getProgress s
  if stage ∈ p.completed_stages then s
  else
    { s with progressFile := some (PFile.good
        { p with completed_stages := p.completed_stages ++ [stage],
                 current_stage := none, last_updated := some now }) }

/-- Whether a stage's blob exists and parses
(progress_manager.py lines 130-141). -/
def stageBlobOk (s : Store) (stage : String) : Bool :=
  match s.blobs stage with
  | some Blob.parsable => true
  | _ => false

/-- The verification loop of `verify_cache_integrity`
(progress_manager.py lines 129-141): walk the completed stages in order and
return false at the first missing or unparseable blob. -/
def verifyStages (s : Store) : List String → Bool
  | [] => true
  | st :: rest => if stageBlobOk s st then verifyStages s rest else false

/-- `ProgressManager.verify_cache_integrity`
(progress_manager.py lines 123-147). -/
def verify_cache_integrity (s : Store) : Bool :=
  verifyStages s (getProgress s).completed_stages

/-- `ProgressManager.reset_progress` (progress_manager.py lines 149-162):
delete the progress file and every `*_result.json` blob. -/
def reset_progress (_s : Store) : Store :=
  { progressFile := none, blobs := fun _ => none }

/-- The integrity gate of the startup hook (`backend/app/main.py` lines
63-69): if cache integrity verification fails, reset all progress. -/
def startupIntegrityCheck (s : Store) : Store :=
  if verify_cache_integrity s then s else reset_progress s

/-- Concrete instance for C5: the ledger lists `data_loading` as completed
while no blob exists. -/
def c5Store : Store :=
  { progressFile := some (PFile.good
      { current_stage := some "clustering", completed_stages := ["data_loading"],
        last_updated := some "2025-01-01", processed_count := 1, total_count := 2 }),
    blobs := fun _ => none }

/-- Concrete store for the C10 witness: stage `a` completed, stage `b` not. -/
def c10Store : Store :=
  { progressFile := some (PFile.good
      { current_stage := none, completed_stages := ["a"],
        last_updated := some "2025-01-01", processed_count := 3, total_count := 4 }),
    blobs := fun _ => none }

/-! ## Theorems -/

theorem mapUpd_self (m : CMap) (k v : Nat) : mapUpd m k v k = some v := by
  simp [mapUpd]

theorem mapUpd_ne (m : CMap) {x k : Nat} (v : Nat) (h : x ≠ k) :
    mapUpd m k v x = m x := by
  simp [mapUpd, h]

set_option maxRecDepth 100000 in
set_option maxHeartbeats 4000000 in
/-- C1 (code bug): the transitive-closure property fails on the code's own
deterministic execution.  In `c1Run` the claim's hypotheses hold for
`a := w` (index 0), `b := x` (index 1), `c := y` (index 3):
`comb(w,x) = 4/5 ≥ 0.7`, `comb(x,y) = 18/25 ≥ 0.7`, `comb(w,y) = 2/5 < 0.7`.
The four records form a single batch, so the batch order `[0]` is forced and
the pairs are applied in the `results` dict's row-major insertion order
`(w,x),(x,w),(x,y),(z,y),(y,x),(y,z)`.  Tracing the plain assignments:
`x ↦ 0`, `w ↦ 0`, `y ↦ 0`, then `(z,y)` overwrites `y ↦ 2` and `(y,x)`
drags `x ↦ 2`, while `w` keeps cluster 0 — so `a` ends in a different
cluster than `b` and `c`, where the spec requires a union-find that keeps
the whole component together. -/
theorem c1_transitive_closure_violated :
    (mkRat 7 10 ≤ combSim c1tv c1dv 0 1 ∧
     mkRat 7 10 ≤ combSim c1tv c1dv 1 3 ∧
     combSim c1tv c1dv 0 3 < mkRat 7 10) ∧
    ((c1Run.servers.getD 0 default).cluster_id = some 0 ∧
     (c1Run.servers.getD 1 default).cluster_id = some 2 ∧
     (c1Run.servers.getD 3 default).cluster_id = some 2) :=
  of_decide_eq_true (by with_unfolding_all rfl)

theorem c4_partition_violated_on_restore :
    ((c4Run.cluster_data.map (fun p => p.2.servers)).flatten = ["t"] ∧
     (c4Run.cluster_data.map (fun p => p.2.servers)).flatten.count "s" = 0 ∧
     c4Run.servers.length = 1 ∧
     (c4Run.servers.getD 0 default).server_id = "s") :=
  of_decide_eq_true (by with_unfolding_all rfl)

/-! ## A generic left-fold invariant -/

theorem foldl_inv {σ : Type} {α : Type} (P : σ → Prop) (f : σ → α → σ)
    (L : List α) (init : σ) (hstep : ∀ s a, a ∈ L → P s → P (f s a))
    (h0 : P init) : P (L.foldl f init) := by
  induction L generalizing init with
  | nil => exact h0
  | cons a rest ih =>
    rw [List.foldl_cons]
    exact ih _ (fun s b hb hs => hstep s b (List.mem_cons_of_mem a hb) hs)
      (hstep init a (List.mem_cons_self a rest) h0)

/-! ## Phase 1 fold lemmas -/

theorem p1body_at_self (i j : Nat) (m : CMap) : (p1body i m j) i = m i := by
  by_cases h : i = j
  · simp [p1body, h]
  · simp only [p1body, if_neg h]
    exact mapUpd_ne m _ h

theorem p1fold_at_self (i : Nat) : ∀ (L : List Nat) (m : CMap),
    (L.foldl (p1body i) m) i = m i := by
  intro L
  induction L with
  | nil => intro m; rfl
  | cons j rest ih =>
    intro m
    rw [List.foldl_cons, ih, p1body_at_self]

theorem p1fold_at_ne (i x : Nat) (hx : x ≠ i) : ∀ (L : List Nat) (m : CMap),
    (L.foldl (p1body i) m) x
      = if x ∈ L then some ((m i).getD 0) else m x := by
  intro L
  induction L with
  | nil => intro m; simp
  | cons j rest ih =>
    intro m
    rw [List.foldl_cons, ih, p1body_at_self]
    by_cases hxr : x ∈ rest
    · simp [hxr, List.mem_cons]
    · by_cases hxj : x = j
      · subst hxj
        have hij : ¬i = x := fun h => hx h.symm
        rw [if_neg hxr]
        simp only [p1body, if_neg hij]
        simp [mapUpd_self, List.mem_cons]
      · have hb : (p1body i m j) x = m x := by
          by_cases h : i = j
          · simp [p1body, h]
          · simp only [p1body, if_neg h]
            exact mapUpd_ne m _ hxj
        rw [if_neg hxr, hb]
        simp [List.mem_cons, hxj, hxr]

theorem phase1Row_fst_eq (θ : ℚ) (tv : Nat → List ℚ) (n i : Nat)
    (st : CMap × Nat) :
    (phase1Row θ tv n i st).1
      = ((List.range n).filter (fun j => decide (θ ≤ titleSim tv i j))).foldl
          (p1body i)
          (if (st.1 i).isSome then st.1 else mapUpd st.1 i st.2) := by
  simp only [phase1Row]
  by_cases h : (st.1 i).isSome <;> simp [h]

theorem freshMap_at_self (st : CMap × Nat) (i : Nat) :
    ((if (st.1 i).isSome then st.1 else mapUpd st.1 i st.2) i).isSome := by
  by_cases h : (st.1 i).isSome
  · simp [h]
  · simp [h, mapUpd_self]

theorem freshMap_at_ne (st : CMap × Nat) (i x : Nat) (hx : x ≠ i) :
    (if (st.1 i).isSome then st.1 else mapUpd st.1 i st.2) x = st.1 x := by
  by_cases h : (st.1 i).isSome
  · simp [h]
  · simp [h, mapUpd_ne _ _ hx]

theorem phase1Row_at_self (θ : ℚ) (tv : Nat → List ℚ) (n i : Nat)
    (st : CMap × Nat) :
    (phase1Row θ tv n i st).1 i
      = (if (st.1 i).isSome then st.1 else mapUpd st.1 i st.2) i := by
  rw [phase1Row_fst_eq, p1fold_at_self]

theorem phase1Row_at_ne (θ : ℚ) (tv : Nat → List ℚ) (n i x : Nat)
    (st : CMap × Nat) (hx : x ≠ i) :
    (phase1Row θ tv n i st).1 x
      = if x ∈ List.range n ∧ θ ≤ titleSim tv i x then
          some (((if (st.1 i).isSome then st.1 else mapUpd st.1 i st.2) i).getD 0)
        else st.1 x := by
  rw [phase1Row_fst_eq, p1fold_at_ne _ _ hx, freshMap_at_ne st i x hx]
  have hmem : (x ∈ (List.range n).filter (fun j => decide (θ ≤ titleSim tv i j)))
      ↔ (x ∈ List.range n ∧ θ ≤ titleSim tv i x) := by
    simp [List.mem_filter]
  rw [if_congr hmem rfl rfl]

theorem phase1Row_isSome_mono (θ : ℚ) (tv : Nat → List ℚ) (n i : Nat)
    (st : CMap × Nat) (x : Nat) (h : (st.1 x).isSome) :
    ((phase1Row θ tv n i st).1 x).isSome := by
  by_cases hx : x = i
  · subst hx
    rw [phase1Row_at_self]
    exact freshMap_at_self st x
  · rw [phase1Row_at_ne θ tv n i x st hx]
    by_cases hc : x ∈ List.range n ∧ θ ≤ titleSim tv i x
    · rw [if_pos hc]
      rfl
    · rw [if_neg hc]
      exact h

theorem phase1Row_own_isSome (θ : ℚ) (tv : Nat → List ℚ) (n i : Nat)
    (st : CMap × Nat) : ((phase1Row θ tv n i st).1 i).isSome := by
  rw [phase1Row_at_self]
  exact freshMap_at_self st i

theorem phase1Row_preserves_eq (θ : ℚ) (tv : Nat → List ℚ) (n r i₀ j₀ : Nat)
    (st : CMap × Nat) (hi : i₀ < n) (hj : j₀ < n) (hij : i₀ ≠ j₀)
    (hvt : tv i₀ = tv j₀) (hself : θ ≤ dotQ (tv i₀) (tv i₀))
    (heq : st.1 i₀ = st.1 j₀) :
    (phase1Row θ tv n r st).1 i₀ = (phase1Row θ tv n r st).1 j₀ := by
  by_cases hri : r = i₀
  · subst hri
    rw [phase1Row_at_self, phase1Row_at_ne θ tv n r j₀ st (fun h => hij h.symm)]
    have hsim : θ ≤ titleSim tv r j₀ := by
      show θ ≤ dotQ (tv r) (tv j₀)
      rw [← hvt]
      exact hself
    rw [if_pos (show j₀ ∈ List.range n ∧ θ ≤ titleSim tv r j₀ from
      ⟨List.mem_range.mpr hj, hsim⟩)]
    obtain ⟨c, hc⟩ := Option.isSome_iff_exists.mp (freshMap_at_self st r)
    rw [hc]
    rfl
  · by_cases hrj : r = j₀
    · subst hrj
      rw [phase1Row_at_ne θ tv n r i₀ st (fun h => hri h.symm), phase1Row_at_self]
      have hsim : θ ≤ titleSim tv r i₀ := by
        show θ ≤ dotQ (tv r) (tv i₀)
        rw [hvt.symm]
        exact hself
      rw [if_pos (show i₀ ∈ List.range n ∧ θ ≤ titleSim tv r i₀ from
        ⟨List.mem_range.mpr hi, hsim⟩)]
      obtain ⟨c, hc⟩ := Option.isSome_iff_exists.mp (freshMap_at_self st r)
      rw [hc]
      rfl
    · rw [phase1Row_at_ne θ tv n r i₀ st (fun h => hri h.symm),
        phase1Row_at_ne θ tv n r j₀ st (fun h => hrj h.symm)]
      have hsimeq : titleSim tv r i₀ = titleSim tv r j₀ := by
        show dotQ (tv r) (tv i₀) = dotQ (tv r) (tv j₀)
        rw [hvt]
      have hcond : (i₀ ∈ List.range n ∧ θ ≤ titleSim tv r i₀)
          ↔ (j₀ ∈ List.range n ∧ θ ≤ titleSim tv r j₀) := by
        rw [hsimeq]
        simp [List.mem_range, hi, hj]
      by_cases hc : j₀ ∈ List.range n ∧ θ ≤ titleSim tv r j₀
      · rw [if_pos (hcond.mpr hc), if_pos hc]
      · rw [if_neg (fun hh => hc (hcond.mp hh)), if_neg hc]
        exact heq

theorem phase1_eq_at (θ : ℚ) (tv : Nat → List ℚ) (n i₀ j₀ : Nat)
    (hi : i₀ < n) (hj : j₀ < n) (hij : i₀ ≠ j₀)
    (hvt : tv i₀ = tv j₀) (hself : θ ≤ dotQ (tv i₀) (tv i₀)) :
    (phase1 θ tv n).1 i₀ = (phase1 θ tv n).1 j₀ :=
  foldl_inv (fun st : CMap × Nat => st.1 i₀ = st.1 j₀)
    (fun st i => phase1Row θ tv n i st) (List.range n) (fun _ => none, 0)
    (fun st r _ hP =>
      phase1Row_preserves_eq θ tv n r i₀ j₀ st hi hj hij hvt hself hP)
    rfl

theorem phase1_isSome (θ : ℚ) (tv : Nat → List ℚ) (n i : Nat) (hi : i < n) :
    ((phase1 θ tv n).1 i).isSome := by
  have hsplit : List.range n = List.range (i + 1) ++ (List.range n).drop (i + 1) := by
    conv_lhs => rw [← List.take_append_drop (i + 1) (List.range n)]
    rw [List.take_range, Nat.min_eq_left (Nat.succ_le_of_lt hi)]
  rw [phase1, hsplit, List.foldl_append]
  refine foldl_inv (fun st : CMap × Nat => (st.1 i).isSome) _ _ _ ?_ ?_
  · intro s a _ hs
    exact phase1Row_isSome_mono θ tv n a s i hs
  · rw [List.range_succ, List.foldl_append]
    exact phase1Row_own_isSome θ tv n i _

theorem applyPairs_cons (servers : List SRec) (θ : ℚ) (m : CMap)
    (p : String × String × ℚ) (ps : List (String × String × ℚ)) :
    applyPairs servers θ m (p :: ps)
      = applyPairs servers θ (p2body servers θ m p) ps := rfl

theorem applyPairs_append (servers : List SRec) (θ : ℚ) (m : CMap)
    (l₁ l₂ : List (String × String × ℚ)) :
    applyPairs servers θ m (l₁ ++ l₂)
      = applyPairs servers θ (applyPairs servers θ m l₁) l₂ :=
  List.foldl_append _ _ _ _

theorem p2body_at (servers : List SRec) (θ : ℚ) (m : CMap)
    (p : String × String × ℚ) (x : Nat) :
    (p2body servers θ m p) x
      = if θ ≤ p.2.2 ∧ x = idIdx servers p.2.1 then
          some ((m (idIdx servers p.1)).getD 0)
        else m x := by
  by_cases hs : θ ≤ p.2.2
  · simp only [p2body, if_pos hs]
    by_cases hx : x = idIdx servers p.2.1
    · rw [if_pos ⟨hs, hx⟩, hx, mapUpd_self]
    · rw [if_neg (fun hh => hx hh.2), mapUpd_ne _ _ hx]
  · simp only [p2body, if_neg hs]
    rw [if_neg (fun hh => hs hh.1)]

theorem applyPairs_src_const (servers : List SRec) (θ : ℚ) (i : Nat) :
    ∀ (PS : List (String × String × ℚ)),
      (∀ p ∈ PS, idIdx servers p.2.1 ≠ i) →
      ∀ m : CMap, applyPairs servers θ m PS i = m i := by
  intro PS
  induction PS with
  | nil => intro _ m; rfl
  | cons p rest ih =>
    intro htgt m
    rw [applyPairs_cons,
      ih (fun q hq => htgt q (List.mem_cons_of_mem p hq)), p2body_at]
    rw [if_neg (fun hh => htgt p (List.mem_cons_self p rest) hh.2.symm)]

theorem applyPairs_at_ne (servers : List SRec) (θ : ℚ) (i x : Nat)
    (_hx : x ≠ i) :
    ∀ (PS : List (String × String × ℚ)),
      (∀ p ∈ PS, idIdx servers p.1 = i) →
      (∀ p ∈ PS, idIdx servers p.2.1 ≠ i) →
      (∀ p ∈ PS, θ ≤ p.2.2) →
      ∀ m : CMap,
      applyPairs servers θ m PS x
        = if ∃ p ∈ PS, idIdx servers p.2.1 = x then some ((m i).getD 0)
          else m x := by
  intro PS
  induction PS with
  | nil => intro _ _ _ m; simp [applyPairs]
  | cons p rest ih =>
    intro hsrc htgt hsc m
    rw [applyPairs_cons,
      ih (fun q hq => hsrc q (List.mem_cons_of_mem p hq))
        (fun q hq => htgt q (List.mem_cons_of_mem p hq))
        (fun q hq => hsc q (List.mem_cons_of_mem p hq))]
    have hmi : (p2body servers θ m p) i = m i := by
      rw [p2body_at,
        if_neg (fun hh => htgt p (List.mem_cons_self p rest) hh.2.symm)]
    rw [hmi]
    by_cases hex : ∃ q ∈ rest, idIdx servers q.2.1 = x
    · obtain ⟨q, hq, hqx⟩ := hex
      rw [if_pos ⟨q, hq, hqx⟩,
        if_pos ⟨q, List.mem_cons_of_mem p hq, hqx⟩]
    · rw [if_neg hex]
      by_cases hpx : idIdx servers p.2.1 = x
      · rw [p2body_at, if_pos ⟨hsc p (List.mem_cons_self p rest), hpx.symm⟩,
          hsrc p (List.mem_cons_self p rest),
          if_pos ⟨p, List.mem_cons_self p rest, hpx⟩]
      · have hnone : ¬∃ q ∈ p :: rest, idIdx servers q.2.1 = x := by
          rintro ⟨q, hq, hqx⟩
          rcases List.mem_cons.mp hq with h | h
          · exact hpx (h ▸ hqx)
          · exact hex ⟨q, h, hqx⟩
        rw [if_neg hnone, p2body_at,
          if_neg (fun hh => hpx hh.2.symm)]

/-! ## Record-id index lemmas -/

theorem idIdx_sid (servers : List SRec)
    (hN : (servers.map (fun s => s.server_id)).Nodup) :
    ∀ j : Nat, j < servers.length →
      idIdx servers ((servers.getD j default).server_id) = j := by
  induction servers with
  | nil => intro j hj; cases hj
  | cons s rest ih =>
    rw [List.map_cons, List.nodup_cons] at hN
    intro j hj
    cases j with
    | zero =>
      simp [idIdx, List.findIdx_cons, List.getD_cons_zero]
    | succ j =>
      have hj' : j < rest.length := Nat.lt_of_succ_lt_succ hj
      have hid : (rest.getD j default).server_id
          ∈ rest.map (fun s => s.server_id) := by
        rw [List.getD_eq_getElem _ _ hj']
        exact List.mem_map_of_mem _ (List.getElem_mem hj')
      have hne : ¬(s.server_id = (rest.getD j default).server_id) := by
        intro h
        exact hN.1 (h ▸ hid)
      simp only [idIdx, List.getD_cons_succ, List.findIdx_cons]
      rw [show decide (s.server_id = (rest.getD j default).server_id)
          = false from decide_eq_false hne]
      simp only [cond_false]
      have := ih hN.2 j hj'
      simp only [idIdx] at this
      rw [this]

theorem sid_inj (servers : List SRec)
    (hN : (servers.map (fun s => s.server_id)).Nodup) {x y : Nat}
    (hx : x < servers.length) (hy : y < servers.length)
    (h : (servers.getD x default).server_id
      = (servers.getD y default).server_id) : x = y := by
  have hxx := idIdx_sid servers hN x hx
  rw [h, idIdx_sid servers hN y hy] at hxx
  exact hxx.symm

/-! ## Qualifying-pair lemmas -/

theorem mem_qpRow (θ : ℚ) (servers : List SRec) (tv dv : Nat → List ℚ)
    (idxs : List Nat) (i : Nat) (p : String × String × ℚ) :
    p ∈ qpRow θ servers tv dv idxs i ↔
      ∃ j ∈ idxs,
        ((servers.getD i default).server_id
            ≠ (servers.getD j default).server_id
          ∧ θ ≤ combSim tv dv i j)
        ∧ p = ((servers.getD i default).server_id,
               (servers.getD j default).server_id, combSim tv dv i j) := by
  simp only [qpRow, List.mem_filterMap]
  constructor
  · rintro ⟨j, hj, hsome⟩
    by_cases hc : (servers.getD i default).server_id
        ≠ (servers.getD j default).server_id ∧ θ ≤ combSim tv dv i j
    · rw [if_pos hc] at hsome
      exact ⟨j, hj, hc, (Option.some_inj.mp hsome).symm⟩
    · rw [if_neg hc] at hsome
      cases hsome
  · rintro ⟨j, hj, hc, hp⟩
    refine ⟨j, hj, ?_⟩
    rw [if_pos hc, hp]

theorem mem_batchIdxs {n s sz x : Nat} :
    x ∈ batchIdxs n s sz ↔ s ≤ x ∧ x < s + sz ∧ x < n := by
  unfold batchIdxs
  rw [List.mem_iff_getElem]
  constructor
  · rintro ⟨k, hk, hval⟩
    have hk' : k < sz ⊓ (n - s) := by
      simpa [List.length_take, List.length_drop, List.length_range] using hk
    rw [List.getElem_take, List.getElem_drop, List.getElem_range] at hval
    omega
  · rintro ⟨h1, h2, h3⟩
    refine ⟨x - s, ?_, ?_⟩
    · simp only [List.length_take, List.length_drop, List.length_range]
      omega
    · rw [List.getElem_take, List.getElem_drop, List.getElem_range]
      omega

theorem batchIdxs_lt {n s sz x : Nat} (h : x ∈ batchIdxs n s sz) : x < n :=
  (mem_batchIdxs.mp h).2.2

/-! ## Phase 2 preserves synchronized positions -/

theorem qpRow_preserves_Esync (θ : ℚ) (servers : List SRec)
    (tv dv : Nat → List ℚ) (idxs : List Nat) (i i₀ j₀ : Nat) (m : CMap)
    (hN : (servers.map (fun s => s.server_id)).Nodup)
    (hidx : ∀ j ∈ idxs, j < servers.length)
    (hiL : i < servers.length)
    (hi₀ : i₀ < servers.length) (hj₀ : j₀ < servers.length) (hij : i₀ ≠ j₀)
    (hmemiff : i₀ ∈ idxs ↔ j₀ ∈ idxs)
    (hvt : tv i₀ = tv j₀) (hvd : dv i₀ = dv j₀)
    (hE : Esync m i₀ j₀) :
    Esync (applyPairs servers θ m (qpRow θ servers tv dv idxs i)) i₀ j₀ := by
  obtain ⟨c, hc₀, hc₁⟩ := hE
  have hsrc : ∀ p ∈ qpRow θ servers tv dv idxs i, idIdx servers p.1 = i := by
    intro p hp
    obtain ⟨j, _, _, hp⟩ := (mem_qpRow θ servers tv dv idxs i p).mp hp
    rw [hp]
    exact idIdx_sid servers hN i hiL
  have htgt : ∀ p ∈ qpRow θ servers tv dv idxs i, idIdx servers p.2.1 ≠ i := by
    intro p hp
    obtain ⟨j, hj, hcnd, hp⟩ := (mem_qpRow θ servers tv dv idxs i p).mp hp
    rw [hp]
    show idIdx servers ((servers.getD j default).server_id) ≠ i
    rw [idIdx_sid servers hN j (hidx j hj)]
    intro h
    exact hcnd.1 (by rw [h])
  have hsc : ∀ p ∈ qpRow θ servers tv dv idxs i, θ ≤ p.2.2 := by
    intro p hp
    obtain ⟨j, _, hcnd, hp⟩ := (mem_qpRow θ servers tv dv idxs i p).mp hp
    rw [hp]
    exact hcnd.2
  have hEx : ∀ x : Nat, x < servers.length →
      ((∃ p ∈ qpRow θ servers tv dv idxs i, idIdx servers p.2.1 = x)
        ↔ (x ∈ idxs
            ∧ (servers.getD i default).server_id
                ≠ (servers.getD x default).server_id
            ∧ θ ≤ combSim tv dv i x)) := by
    intro x hx
    constructor
    · rintro ⟨p, hp, hpx⟩
      obtain ⟨j, hj, hcnd, hp⟩ := (mem_qpRow θ servers tv dv idxs i p).mp hp
      rw [hp] at hpx
      have : j = x := by
        rw [idIdx_sid servers hN j (hidx j hj)] at hpx
        exact hpx
      subst this
      exact ⟨hj, hcnd.1, hcnd.2⟩
    · rintro ⟨hxm, hne, hcs⟩
      refine ⟨((servers.getD i default).server_id,
        (servers.getD x default).server_id, combSim tv dv i x), ?_, ?_⟩
      · exact (mem_qpRow θ servers tv dv idxs i _).mpr
          ⟨x, hxm, ⟨hne, hcs⟩, rfl⟩
      · exact idIdx_sid servers hN x hx
  by_cases hii : i = i₀
  · subst hii
    have h0 := applyPairs_src_const servers θ i
      (qpRow θ servers tv dv idxs i) htgt m
    have h1 := applyPairs_at_ne servers θ i j₀ (fun h => hij h.symm)
      (qpRow θ servers tv dv idxs i) hsrc htgt hsc m
    by_cases hcnd : ∃ p ∈ qpRow θ servers tv dv idxs i,
        idIdx servers p.2.1 = j₀
    · rw [if_pos hcnd] at h1
      exact ⟨c, by rw [h0, hc₀], by rw [h1, hc₀]; rfl⟩
    · rw [if_neg hcnd] at h1
      exact ⟨c, by rw [h0, hc₀], by rw [h1, hc₁]⟩
  · by_cases hji : i = j₀
    · subst hji
      have h0 := applyPairs_src_const servers θ i
        (qpRow θ servers tv dv idxs i) htgt m
      have h1 := applyPairs_at_ne servers θ i i₀ (fun h => hii h.symm)
        (qpRow θ servers tv dv idxs i) hsrc htgt hsc m
      by_cases hcnd : ∃ p ∈ qpRow θ servers tv dv idxs i,
          idIdx servers p.2.1 = i₀
      · rw [if_pos hcnd] at h1
        exact ⟨c, by rw [h1, hc₁]; rfl, by rw [h0, hc₁]⟩
      · rw [if_neg hcnd] at h1
        exact ⟨c, by rw [h1, hc₀], by rw [h0, hc₁]⟩
    · have h0 := applyPairs_at_ne servers θ i i₀ (fun h => hii h.symm)
        (qpRow θ servers tv dv idxs i) hsrc htgt hsc m
      have h1 := applyPairs_at_ne servers θ i j₀ (fun h => hji h.symm)
        (qpRow θ servers tv dv idxs i) hsrc htgt hsc m
      have hsidne₀ : (servers.getD i default).server_id
          ≠ (servers.getD i₀ default).server_id := by
        intro h
        exact hii (sid_inj servers hN hiL hi₀ h)
      have hsidne₁ : (servers.getD i default).server_id
          ≠ (servers.getD j₀ default).server_id := by
        intro h
        exact hji (sid_inj servers hN hiL hj₀ h)
      have hcseq : combSim tv dv i i₀ = combSim tv dv i j₀ := by
        show mkRat 3 5 * dotQ (tv i) (tv i₀) + mkRat 2 5 * dotQ (dv i) (dv i₀)
          = mkRat 3 5 * dotQ (tv i) (tv j₀) + mkRat 2 5 * dotQ (dv i) (dv j₀)
        rw [hvt, hvd]
      have hcondiff : (∃ p ∈ qpRow θ servers tv dv idxs i,
            idIdx servers p.2.1 = i₀)
          ↔ (∃ p ∈ qpRow θ servers tv dv idxs i, idIdx servers p.2.1 = j₀) := by
        rw [hEx i₀ hi₀, hEx j₀ hj₀]
        constructor
        · rintro ⟨ha, _, hb⟩
          exact ⟨hmemiff.mp ha, hsidne₁, hcseq ▸ hb⟩
        · rintro ⟨ha, _, hb⟩
          exact ⟨hmemiff.mpr ha, hsidne₀, hcseq ▸ hb⟩
      by_cases hcnd : ∃ p ∈ qpRow θ servers tv dv idxs i,
          idIdx servers p.2.1 = j₀
      · rw [if_pos hcnd] at h1
        rw [if_pos (hcondiff.mpr hcnd)] at h0
        exact ⟨(m i).getD 0, by rw [h0], by rw [h1]⟩
      · rw [if_neg hcnd] at h1
        rw [if_neg (fun hh => hcnd (hcondiff.mp hh))] at h0
        exact ⟨c, by rw [h0, hc₀], by rw [h1, hc₁]⟩

theorem qualPairs_preserves_Esync (θ : ℚ) (servers : List SRec)
    (tv dv : Nat → List ℚ) (start size i₀ j₀ : Nat) (m : CMap)
    (hN : (servers.map (fun s => s.server_id)).Nodup)
    (hi₀ : i₀ < servers.length) (hj₀ : j₀ < servers.length) (hij : i₀ ≠ j₀)
    (hmemiff : i₀ ∈ batchIdxs servers.length start size
      ↔ j₀ ∈ batchIdxs servers.length start size)
    (hvt : tv i₀ = tv j₀) (hvd : dv i₀ = dv j₀)
    (hE : Esync m i₀ j₀) :
    Esync (applyPairs servers θ m (qualPairs θ servers tv dv start size))
      i₀ j₀ := by
  have hidx : ∀ j ∈ batchIdxs servers.length start size,
      j < servers.length := fun j hj => batchIdxs_lt hj
  show Esync (applyPairs servers θ m
    ((batchIdxs servers.length start size).flatMap
      (qpRow θ servers tv dv (batchIdxs servers.length start size)))) i₀ j₀
  have hgen : ∀ rows : List Nat, (∀ r ∈ rows, r < servers.length) →
      ∀ mm : CMap, Esync mm i₀ j₀ →
      Esync (applyPairs servers θ mm
        (rows.flatMap
          (qpRow θ servers tv dv (batchIdxs servers.length start size))))
        i₀ j₀ := by
    intro rows
    induction rows with
    | nil => intro _ mm hmm; exact hmm
    | cons r rest ih =>
      intro hr mm hmm
      rw [List.flatMap_cons, applyPairs_append]
      exact ih (fun q hq => hr q (List.mem_cons_of_mem r hq)) _
        (qpRow_preserves_Esync θ servers tv dv _ r i₀ j₀ mm hN hidx
          (hr r (List.mem_cons_self r rest)) hi₀ hj₀ hij hmemiff hvt hvd hmm)
  exact hgen _ hidx m hE

theorem phase2_preserves_Esync (θ : ℚ) (servers : List SRec)
    (tv dv : Nat → List ℚ) (ord : List Nat) (i₀ j₀ : Nat) (m : CMap)
    (hN : (servers.map (fun s => s.server_id)).Nodup)
    (hi₀ : i₀ < servers.length) (hj₀ : j₀ < servers.length) (hij : i₀ ≠ j₀)
    (hbatch : i₀ / 100 = j₀ / 100)
    (hvt : tv i₀ = tv j₀) (hvd : dv i₀ = dv j₀)
    (hE : Esync m i₀ j₀) :
    Esync (phase2 θ servers tv dv ord m) i₀ j₀ := by
  unfold phase2
  refine foldl_inv (fun mm : CMap => Esync mm i₀ j₀) _ ord m ?_ hE
  intro mm b _ hmm
  have hmemiff : i₀ ∈ batchIdxs servers.length (100 * b) 100
      ↔ j₀ ∈ batchIdxs servers.length (100 * b) 100 := by
    rw [mem_batchIdxs, mem_batchIdxs]
    omega
  exact qualPairs_preserves_Esync θ servers tv dv (100 * b) 100 i₀ j₀ mm hN
    hi₀ hj₀ hij hmemiff hvt hvd hmm

/-! ## Association-list dictionary lemmas -/

theorem dictGet?_nil (x : String) : dictGet? ([] : List (String × Nat)) x = none := by
  simp [dictGet?]

theorem dictGet?_cons (p : String × Nat) (d : List (String × Nat)) (x : String) :
    dictGet? (p :: d) x = if p.1 = x then some p.2 else dictGet? d x := by
  by_cases h : p.1 = x <;> simp [dictGet?, List.find?, h]

theorem dictGet?_dictPut_self (d : List (String × Nat)) (k : String) (v : Nat) :
    dictGet? (dictPut d k v) k = some v := by
  induction d with
  | nil => simp [dictPut, dictGet?_cons]
  | cons p rest ih =>
    obtain ⟨a, b⟩ := p
    by_cases h : a = k
    · simp only [dictPut, if_pos h]
      simp [dictGet?_cons]
    · simp only [dictPut, if_neg h]
      rw [dictGet?_cons]
      simp only [if_neg h]
      exact ih

theorem dictGet?_dictPut_ne (d : List (String × Nat)) (k x : String) (v : Nat)
    (hx : x ≠ k) : dictGet? (dictPut d k v) x = dictGet? d x := by
  have hkx : ¬(k = x) := fun h => hx h.symm
  induction d with
  | nil => simp [dictPut, dictGet?_cons, hkx, dictGet?_nil]
  | cons p rest ih =>
    obtain ⟨a, b⟩ := p
    by_cases h : a = k
    · subst h
      have hput : dictPut ((a, b) :: rest) a v = (a, v) :: rest := by
        simp [dictPut]
      rw [hput, dictGet?_cons, dictGet?_cons]
      simp [hkx]
    · simp only [dictPut, if_neg h]
      rw [dictGet?_cons, dictGet?_cons]
      by_cases hpx : a = x
      · simp [hpx]
      · simp [hpx, ih]

/-! ## Result-building loop lemmas -/

theorem buildLoop_cons (s : SRec) (rest : List SRec) (i : Nat) (m : CMap)
    (cl : List (String × Nat)) (cd : List (Nat × ClusterInfo)) :
    buildLoop (s :: rest) i m cl cd =
      (({ s with cluster_id := some ((m i).getD 0) } ::
          (buildLoop rest (i + 1) m (dictPut cl s.server_id ((m i).getD 0))
            (upsertMember cd ((m i).getD 0)
              ((extract_entity_name s.title).toLower) s.server_id)).1),
       (buildLoop rest (i + 1) m (dictPut cl s.server_id ((m i).getD 0))
          (upsertMember cd ((m i).getD 0)
            ((extract_entity_name s.title).toLower) s.server_id)).2.1,
       (buildLoop rest (i + 1) m (dictPut cl s.server_id ((m i).getD 0))
          (upsertMember cd ((m i).getD 0)
            ((extract_entity_name s.title).toLower) s.server_id)).2.2) := rfl

theorem buildLoop_servers_getD (l : List SRec) (i0 : Nat) (m : CMap)
    (cl : List (String × Nat)) (cd : List (Nat × ClusterInfo)) (k : Nat)
    (hk : k < l.length) :
    (buildLoop l i0 m cl cd).1.getD k default
      = { l.getD k default with cluster_id := some ((m (i0 + k)).getD 0) } := by
  induction l generalizing i0 cl cd k with
  | nil => cases hk
  | cons s rest ih =>
    rw [buildLoop_cons]
    cases k with
    | zero => simp [List.getD]
    | succ k =>
      have hk' : k < rest.length := Nat.lt_of_succ_lt_succ hk
      have := ih (i0 + 1) (dictPut cl s.server_id ((m i0).getD 0))
        (upsertMember cd ((m i0).getD 0)
          ((extract_entity_name s.title).toLower) s.server_id) k hk'
      simpa [List.getD, Nat.add_assoc, Nat.add_comm 1 k] using this

theorem buildLoop_clusters_not_mem (l : List SRec) (i0 : Nat) (m : CMap)
    (cl : List (String × Nat)) (cd : List (Nat × ClusterInfo)) (x : String)
    (hx : x ∉ l.map (fun s => s.server_id)) :
    dictGet? (buildLoop l i0 m cl cd).2.1 x = dictGet? cl x := by
  induction l generalizing i0 cl cd with
  | nil => rfl
  | cons s rest ih =>
    rw [buildLoop_cons]
    have hxs : x ≠ s.server_id := by
      intro h; exact hx (by simp [h])
    have hxrest : x ∉ rest.map (fun s => s.server_id) := by
      intro h; exact hx (by simp [h])
    rw [ih _ _ _ hxrest, dictGet?_dictPut_ne _ _ _ _ hxs]

theorem buildLoop_clusters_getD (l : List SRec) (i0 : Nat) (m : CMap)
    (cl : List (String × Nat)) (cd : List (Nat × ClusterInfo)) (k : Nat)
    (hk : k < l.length) (hN : (l.map (fun s => s.server_id)).Nodup) :
    dictGet? (buildLoop l i0 m cl cd).2.1 ((l.getD k default).server_id)
      = some ((m (i0 + k)).getD 0) := by
  induction l generalizing i0 cl cd k with
  | nil => cases hk
  | cons s rest ih =>
    have hN' := hN
    rw [List.map_cons, List.nodup_cons] at hN'
    rw [buildLoop_cons]
    cases k with
    | zero =>
      simp only [List.getD_cons_zero, Nat.add_zero]
      rw [buildLoop_clusters_not_mem _ _ _ _ _ _ hN'.1,
        dictGet?_dictPut_self]
    | succ k =>
      have hk' : k < rest.length := Nat.lt_of_succ_lt_succ hk
      have := ih (i0 + 1) (dictPut cl s.server_id ((m i0).getD 0))
        (upsertMember cd ((m i0).getD 0)
          ((extract_entity_name s.title).toLower) s.server_id) k hk' hN'.2
      simpa [List.getD, Nat.add_assoc, Nat.add_comm 1 k] using this

theorem clusterServers_restore_servers (θ : ℚ) (cache : Cached)
    (servers : List SRec) (tv dv : Nat → List ℚ) (ord : List Nat) :
    (clusterServers θ (some cache) servers tv dv ord).servers
      = servers.map (fun s : SRec =>
          { s with cluster_id := dictGet? cache.clusters s.server_id }) := rfl

theorem clusterServers_restore_servers_getD (θ : ℚ) (cache : Cached)
    (servers : List SRec) (tv dv : Nat → List ℚ) (ord : List Nat) (i : Nat)
    (hi : i < servers.length) :
    (clusterServers θ (some cache) servers tv dv ord).servers.getD i default
      = { servers.getD i default with
          cluster_id := dictGet? cache.clusters
            ((servers.getD i default).server_id) } := by
  rw [clusterServers_restore_servers]
  rw [List.getD_eq_getElem _ _ (by simpa using hi), List.getElem_map,
    List.getD_eq_getElem _ _ hi]

theorem clusterServers_compute_servers (θ : ℚ) (servers : List SRec)
    (tv dv : Nat → List ℚ) (ord : List Nat) :
    (clusterServers θ none servers tv dv ord).servers
      = (buildLoop servers 0
          (phase2 θ servers tv dv ord (phase1 θ tv servers.length).1)
          [] []).1 := rfl

/-- C2 (amended): two records with identical titles and identical
descriptions — hence identical title and description vectors — end in the
same cluster for any threshold at most the title self-similarity (1 for a
unit, i.e. non-degenerate, title vector), PROVIDED the two records fall into
the same Phase 2 batch (same index block of 100) and server ids are globally
unique.  This holds for every batch completion order. -/
theorem c2_reflexive_grouping_amended (θ : ℚ) (servers : List SRec)
    (tv dv : Nat → List ℚ) (ord : List Nat) (i₀ j₀ : Nat)
    (hi : i₀ < servers.length) (hj : j₀ < servers.length)
    (hN : (servers.map (fun s => s.server_id)).Nodup)
    (hvt : tv i₀ = tv j₀) (hvd : dv i₀ = dv j₀)
    (hunit : θ ≤ dotQ (tv i₀) (tv i₀))
    (hbatch : i₀ / 100 = j₀ / 100) :
    ∃ c, ((clusterServers θ none servers tv dv ord).servers.getD i₀
            default).cluster_id = some c
       ∧ ((clusterServers θ none servers tv dv ord).servers.getD j₀
            default).cluster_id = some c := by
  have hbl₀ := buildLoop_servers_getD servers 0
    (phase2 θ servers tv dv ord (phase1 θ tv servers.length).1) [] [] i₀ hi
  have hbl₁ := buildLoop_servers_getD servers 0
    (phase2 θ servers tv dv ord (phase1 θ tv servers.length).1) [] [] j₀ hj
  rw [clusterServers_compute_servers, hbl₀, hbl₁]
  by_cases hij : i₀ = j₀
  · subst hij
    exact ⟨((phase2 θ servers tv dv ord (phase1 θ tv servers.length).1)
      (0 + i₀)).getD 0, rfl, rfl⟩
  · have hE1 : Esync (phase1 θ tv servers.length).1 i₀ j₀ := by
      have heq := phase1_eq_at θ tv servers.length i₀ j₀ hi hj hij hvt hunit
      obtain ⟨c, hc⟩ := Option.isSome_iff_exists.mp
        (phase1_isSome θ tv servers.length i₀ hi)
      exact ⟨c, hc, by rw [← heq, hc]⟩
    have hE2 := phase2_preserves_Esync θ servers tv dv ord i₀ j₀
      (phase1 θ tv servers.length).1 hN hi hj hij hbatch hvt hvd hE1
    obtain ⟨c, h1, h2⟩ := hE2
    refine ⟨c, ?_, ?_⟩
    · show some (((phase2 θ servers tv dv ord
        (phase1 θ tv servers.length).1) (0 + i₀)).getD 0) = some c
      rw [Nat.zero_add, h1]
      rfl
    · show some (((phase2 θ servers tv dv ord
        (phase1 θ tv servers.length).1) (0 + j₀)).getD 0) = some c
      rw [Nat.zero_add, h2]
      rfl

theorem c2_reflexive_grouping_amended_witness :
    ∃ c, ((clusterServers (mkRat 7 10) none c2wServers (fun _ => [mkRat 1 1])
            (fun _ => [mkRat 1 1]) [0]).servers.getD 0
            default).cluster_id = some c
       ∧ ((clusterServers (mkRat 7 10) none c2wServers (fun _ => [mkRat 1 1])
            (fun _ => [mkRat 1 1]) [0]).servers.getD 1
            default).cluster_id = some c :=
  c2_reflexive_grouping_amended (mkRat 7 10) c2wServers
    (fun _ => [mkRat 1 1]) (fun _ => [mkRat 1 1]) [0] 0 1
    (by decide) (by decide) (by decide) rfl rfl
    (of_decide_eq_true (by with_unfolding_all rfl)) (by decide)

/-! ## Symbolic evaluation of the cross-batch C2 run

The 101-record run `c2Run` is evaluated symbolically: the two non-filler
Phase 1 rows and the two qualifying Phase 2 pairs are computed concretely,
while the 98 filler rows (zero vectors, similarity 0) are discharged by the
fold lemmas above. -/

theorem dotQ_nil_left (w : List ℚ) : dotQ [] w = 0 := by
  cases w <;> rfl

set_option maxRecDepth 40000 in
theorem c2Servers_length : c2Servers.length = 101 := by
  with_unfolding_all rfl

theorem c2tv_filler {i : Nat} (h0 : i ≠ 0) (h1 : i ≠ 1) (h100 : i ≠ 100) :
    c2tv i = [] := by
  simp [c2tv, h0, h1, h100]

theorem c2dv_filler {i : Nat} (h0 : i ≠ 0) (h1 : i ≠ 1) (h100 : i ≠ 100) :
    c2dv i = [] := by
  simp [c2dv, h0, h1, h100]

theorem titleSim_c2_filler {i : Nat} (j : Nat) (h0 : i ≠ 0) (h1 : i ≠ 1)
    (h100 : i ≠ 100) : titleSim c2tv i j = 0 := by
  simp only [titleSim, c2tv_filler h0 h1 h100, dotQ_nil_left]

theorem combSim_c2_filler {i : Nat} (j : Nat) (h0 : i ≠ 0) (h1 : i ≠ 1)
    (h100 : i ≠ 100) : combSim c2tv c2dv i j = 0 := by
  simp only [combSim, c2tv_filler h0 h1 h100, c2dv_filler h0 h1 h100,
    dotQ_nil_left, mul_zero, add_zero]

theorem c2_theta_not_le_zero : ¬ ((mkRat 7 10 : ℚ) ≤ 0) :=
  of_decide_eq_true (by with_unfolding_all rfl)

theorem c2_theta_le_pair : (mkRat 7 10 : ℚ) ≤ mkRat 19 25 :=
  of_decide_eq_true (by with_unfolding_all rfl)

theorem c2_title_100_0 : ¬ ((mkRat 7 10 : ℚ) ≤ titleSim c2tv 100 0) :=
  of_decide_eq_true (by with_unfolding_all rfl)

theorem c2_title_100_1 : (mkRat 7 10 : ℚ) ≤ titleSim c2tv 100 1 :=
  of_decide_eq_true (by with_unfolding_all rfl)

theorem c2_filler_row (st : CMap × Nat) (i : Nat)
    (h0i : i ≠ 0) (h1i : i ≠ 1) (h100i : i ≠ 100)
    (hP : st.1 0 = some 0 ∧ st.1 1 = some 1 ∧ st.1 100 = some 1) :
    (phase1Row (mkRat 7 10) c2tv 101 i st).1 0 = some 0
    ∧ (phase1Row (mkRat 7 10) c2tv 101 i st).1 1 = some 1
    ∧ (phase1Row (mkRat 7 10) c2tv 101 i st).1 100 = some 1 := by
  obtain ⟨h0, h1, h100⟩ := hP
  have hts : ∀ x : Nat, ¬ ((mkRat 7 10 : ℚ) ≤ titleSim c2tv i x) := by
    intro x
    rw [titleSim_c2_filler x h0i h1i h100i]
    exact c2_theta_not_le_zero
  refine ⟨?_, ?_, ?_⟩
  · rw [phase1Row_at_ne (mkRat 7 10) c2tv 101 i 0 st (fun h => h0i h.symm),
      if_neg (fun hh => hts 0 hh.2), h0]
  · rw [phase1Row_at_ne (mkRat 7 10) c2tv 101 i 1 st (fun h => h1i h.symm),
      if_neg (fun hh => hts 1 hh.2), h1]
  · rw [phase1Row_at_ne (mkRat 7 10) c2tv 101 i 100 st (fun h => h100i h.symm),
      if_neg (fun hh => hts 100 hh.2), h100]

theorem c2_last_row (st : CMap × Nat)
    (h0 : st.1 0 = some 0) (_h1 : st.1 1 = some 1)
    (h100 : st.1 100 = some 1) :
    (phase1Row (mkRat 7 10) c2tv 101 100 st).1 0 = some 0
    ∧ (phase1Row (mkRat 7 10) c2tv 101 100 st).1 1 = some 1
    ∧ (phase1Row (mkRat 7 10) c2tv 101 100 st).1 100 = some 1 := by
  refine ⟨?_, ?_, ?_⟩
  · rw [phase1Row_at_ne (mkRat 7 10) c2tv 101 100 0 st (by decide),
      if_neg (fun hh => c2_title_100_0 hh.2), h0]
  · have hc : 1 ∈ List.range 101 ∧ (mkRat 7 10 : ℚ) ≤ titleSim c2tv 100 1 :=
      ⟨List.mem_range.mpr (by decide), c2_title_100_1⟩
    rw [phase1Row_at_ne (mkRat 7 10) c2tv 101 100 1 st (by decide), if_pos hc]
    simp [h100]
  · rw [phase1Row_at_self]
    simp [h100]

set_option maxRecDepth 40000 in
set_option maxHeartbeats 4000000 in
theorem c2_phase1_at :
    (phase1 (mkRat 7 10) c2tv c2Servers.length).1 0 = some 0
    ∧ (phase1 (mkRat 7 10) c2tv c2Servers.length).1 1 = some 1
    ∧ (phase1 (mkRat 7 10) c2tv c2Servers.length).1 100 = some 1 := by
  rw [c2Servers_length]
  simp only [phase1]
  have hsplit : List.range 101
      = (List.range 2 ++ (List.range 98).map (fun k => 2 + k)) ++ [100] := by
    with_unfolding_all rfl
  rw [hsplit, List.foldl_append, List.foldl_append, List.foldl_cons,
    List.foldl_nil]
  have hB := foldl_inv
    (fun st : CMap × Nat =>
      st.1 0 = some 0 ∧ st.1 1 = some 1 ∧ st.1 100 = some 1)
    (fun st i => phase1Row (mkRat 7 10) c2tv 101 i st)
    ((List.range 98).map (fun k => 2 + k))
    ((List.range 2).foldl
      (fun st i => phase1Row (mkRat 7 10) c2tv 101 i st)
      (fun _ => none, 0))
    (fun st a ha hp => by
      obtain ⟨k, hk, hak⟩ := List.mem_map.mp ha
      have hk98 : k < 98 := List.mem_range.mp hk
      have hka : 2 + k = a := hak
      exact c2_filler_row st a (by omega) (by omega) (by omega) hp)
    ⟨by with_unfolding_all rfl, by with_unfolding_all rfl,
      by with_unfolding_all rfl⟩
  exact c2_last_row _ hB.1 hB.2.1 hB.2.2

set_option maxRecDepth 40000 in
set_option maxHeartbeats 4000000 in
theorem c2_qp_batch1 :
    qualPairs (mkRat 7 10) c2Servers c2tv c2dv (100 * 1) 100 = [] := by
  with_unfolding_all rfl

set_option maxRecDepth 40000 in
theorem c2_batch0_idxs :
    batchIdxs c2Servers.length (100 * 0) 100
      = List.range 2 ++ (List.range 98).map (fun k => 2 + k) := by
  with_unfolding_all rfl

set_option maxRecDepth 40000 in
set_option maxHeartbeats 16000000 in
theorem c2_qp_row01 :
    (List.range 2).flatMap
        (qpRow (mkRat 7 10) c2Servers c2tv c2dv
          (List.range 2 ++ (List.range 98).map (fun k => 2 + k)))
      = [("x", "a", mkRat 19 25), ("a", "x", mkRat 19 25)] := by
  with_unfolding_all rfl

theorem c2_qp_row_filler :
    ((List.range 98).map (fun k => 2 + k)).flatMap
        (qpRow (mkRat 7 10) c2Servers c2tv c2dv
          (List.range 2 ++ (List.range 98).map (fun k => 2 + k)))
      = ([] : List (String × String × ℚ)) := by
  rw [List.flatMap_eq_nil_iff]
  intro i hi
  obtain ⟨k, hk, hak⟩ := List.mem_map.mp hi
  have hk98 : k < 98 := List.mem_range.mp hk
  have hka : 2 + k = i := hak
  simp only [qpRow]
  rw [List.filterMap_eq_nil_iff]
  intro j _hj
  simp only [combSim_c2_filler j (show i ≠ 0 by omega) (show i ≠ 1 by omega)
    (show i ≠ 100 by omega)]
  rw [if_neg (fun hh => c2_theta_not_le_zero hh.2)]

theorem c2_qp_batch0 :
    qualPairs (mkRat 7 10) c2Servers c2tv c2dv (100 * 0) 100
      = [("x", "a", mkRat 19 25), ("a", "x", mkRat 19 25)] := by
  simp only [qualPairs]
  rw [c2_batch0_idxs, List.flatMap_append, c2_qp_row01, c2_qp_row_filler,
    List.append_nil]

theorem c2_idIdx_x : idIdx c2Servers "x" = 0 := by
  with_unfolding_all rfl

theorem c2_idIdx_a : idIdx c2Servers "a" = 1 := by
  with_unfolding_all rfl

theorem applyPairs_nil (servers : List SRec) (θ : ℚ) (m : CMap) :
    applyPairs servers θ m [] = m := rfl

theorem phase2_two_batches (θ : ℚ) (servers : List SRec)
    (tv dv : Nat → List ℚ) (m : CMap) :
    phase2 θ servers tv dv [0, 1] m
      = applyPairs servers θ
          (applyPairs servers θ m (qualPairs θ servers tv dv (100 * 0) 100))
          (qualPairs θ servers tv dv (100 * 1) 100) := rfl

theorem p2body_mk_at (servers : List SRec) (θ : ℚ) (m : CMap)
    (a b : String) (r : ℚ) (x : Nat) :
    p2body servers θ m (a, b, r) x
      = if θ ≤ r ∧ x = idIdx servers b then
          some ((m (idIdx servers a)).getD 0)
        else m x := by
  rw [p2body_at]

theorem c2_phase2_at :
    phase2 (mkRat 7 10) c2Servers c2tv c2dv [0, 1]
        (phase1 (mkRat 7 10) c2tv c2Servers.length).1 1 = some 0
    ∧ phase2 (mkRat 7 10) c2Servers c2tv c2dv [0, 1]
        (phase1 (mkRat 7 10) c2tv c2Servers.length).1 100 = some 1 := by
  obtain ⟨hm0, -, hm100⟩ := c2_phase1_at
  rw [phase2_two_batches, c2_qp_batch0, c2_qp_batch1, applyPairs_nil,
    applyPairs_cons, applyPairs_cons, applyPairs_nil]
  constructor
  · rw [p2body_mk_at, c2_idIdx_x,
      if_neg (fun hh => absurd hh.2 (by decide : ¬((1 : Nat) = 0))),
      p2body_mk_at, c2_idIdx_a, c2_idIdx_x]
    have hc1 : (mkRat 7 10 : ℚ) ≤ mkRat 19 25 ∧ (1 : Nat) = 1 :=
      ⟨c2_theta_le_pair, rfl⟩
    rw [if_pos hc1, hm0]
    rfl
  · rw [p2body_mk_at, c2_idIdx_x,
      if_neg (fun hh => absurd hh.2 (by decide : ¬((100 : Nat) = 0))),
      p2body_mk_at, c2_idIdx_a,
      if_neg (fun hh => absurd hh.2 (by decide : ¬((100 : Nat) = 1)))]
    exact hm100

theorem c2Run_servers :
    c2Run.servers
      = (clusterServers (mkRat 7 10) none c2Servers c2tv c2dv [0, 1]).servers :=
  rfl

theorem cluster_id_update (s : SRec) (c : Option Nat) :
    ({ s with cluster_id := c } : SRec).cluster_id = c := rfl

set_option maxRecDepth 40000 in
set_option maxHeartbeats 4000000 in
/-- C2 counterexample: records at index 1 and index 100 have identical titles,
identical descriptions (and identical unit vectors), the threshold 0.7 is at
most 1, yet `cluster_servers` leaves them in different clusters.  Phase 1 puts
both in one cluster, but the Phase 2 pair `(x,a)` (combined similarity
`19/25 ≥ 0.7`, title similarity `3/5 < 0.7`) re-assigns `a` to `x`'s cluster
by plain assignment while `b`, being in the second batch (index 100), is never
re-linked.  The batch application order used, `[0, 1]`, is the natural one. -/
theorem c2_reflexive_grouping_violated :
    ((c2Servers.getD 1 default).title = (c2Servers.getD 100 default).title ∧
     (c2Servers.getD 1 default).description
       = (c2Servers.getD 100 default).description ∧
     c2tv 1 = c2tv 100 ∧ c2dv 1 = c2dv 100 ∧
     dotQ (c2tv 1) (c2tv 1) = 1 ∧ mkRat 7 10 ≤ 1) ∧
    ((c2Run.servers.getD 1 default).cluster_id = some 0 ∧
     (c2Run.servers.getD 100 default).cluster_id = some 1) := by
  refine ⟨of_decide_eq_true (by with_unfolding_all rfl), ?_, ?_⟩
  · rw [c2Run_servers, clusterServers_compute_servers,
      buildLoop_servers_getD c2Servers 0 _ [] [] 1
        (by rw [c2Servers_length]; omega),
      cluster_id_update (c2Servers.getD 1 default), Nat.zero_add,
      c2_phase2_at.1]
    rfl
  · rw [c2Run_servers, clusterServers_compute_servers,
      buildLoop_servers_getD c2Servers 0 _ [] [] 100
        (by rw [c2Servers_length]; omega),
      cluster_id_update (c2Servers.getD 100 default), Nat.zero_add,
      c2_phase2_at.2]
    rfl

/-- C3: idempotence on resume.  A first (computing) run writes the
`clustering` checkpoint; a second `cluster_servers` call on the same records
with that checkpoint intact is a pure cache restore: its `clusters` map,
`cluster_data` and `next_cluster_id` are exactly the first run's, every
record receives the same `cluster_id` as in the first run (given globally
unique server ids), and the second run's output does not depend on the
vectorization or on the batch completion order at all (no recomputation). -/
theorem c3_idempotent_resume (θ : ℚ) (servers : List SRec)
    (tv dv tv2 dv2 : Nat → List ℚ) (ord ord2 : List Nat)
    (hN : (servers.map (fun s => s.server_id)).Nodup) :
    (clusterServers θ (clusterServers θ none servers tv dv ord).saved servers
        tv2 dv2 ord2).clusters
      = (clusterServers θ none servers tv dv ord).clusters ∧
    (clusterServers θ (clusterServers θ none servers tv dv ord).saved servers
        tv2 dv2 ord2).cluster_data
      = (clusterServers θ none servers tv dv ord).cluster_data ∧
    (clusterServers θ (clusterServers θ none servers tv dv ord).saved servers
        tv2 dv2 ord2).next_cluster_id
      = (clusterServers θ none servers tv dv ord).next_cluster_id ∧
    (∀ i, i < servers.length →
      ((clusterServers θ (clusterServers θ none servers tv dv ord).saved servers
          tv2 dv2 ord2).servers.getD i default).cluster_id
        = ((clusterServers θ none servers tv dv ord).servers.getD i
            default).cluster_id) ∧
    (∀ tv3 dv3 ord3,
      clusterServers θ (clusterServers θ none servers tv dv ord).saved servers
          tv3 dv3 ord3
        = clusterServers θ (clusterServers θ none servers tv dv ord).saved
            servers tv2 dv2 ord2) := by
  refine ⟨rfl, rfl, rfl, ?_, fun tv3 dv3 ord3 => rfl⟩
  intro i hi
  set m := phase2 θ servers tv dv ord (phase1 θ tv servers.length).1 with hm
  have h1 : (clusterServers θ none servers tv dv ord).servers.getD i default
      = { servers.getD i default with cluster_id := some ((m i).getD 0) } := by
    simpa using buildLoop_servers_getD servers 0 m [] [] i hi
  have h2 : (clusterServers θ (clusterServers θ none servers tv dv ord).saved
        servers tv2 dv2 ord2).servers.getD i default
      = { servers.getD i default with
          cluster_id := dictGet? (clusterServers θ none servers tv dv
            ord).clusters ((servers.getD i default).server_id) } :=
    clusterServers_restore_servers_getD θ _ servers tv2 dv2 ord2 i hi
  have h3 : dictGet? (clusterServers θ none servers tv dv ord).clusters
        ((servers.getD i default).server_id) = some ((m i).getD 0) := by
    simpa using buildLoop_clusters_getD servers 0 m [] [] i hi hN
  rw [h1, h2, h3]

theorem c3_idempotent_resume_witness :
    (clusterServers (mkRat 7 10)
        (clusterServers (mkRat 7 10) none c3Servers (fun _ => [mkRat 1 1])
          (fun _ => [mkRat 1 1]) [0]).saved c3Servers (fun _ => [])
        (fun _ => []) []).clusters
      = (clusterServers (mkRat 7 10) none c3Servers (fun _ => [mkRat 1 1])
          (fun _ => [mkRat 1 1]) [0]).clusters ∧
    ((clusterServers (mkRat 7 10)
        (clusterServers (mkRat 7 10) none c3Servers (fun _ => [mkRat 1 1])
          (fun _ => [mkRat 1 1]) [0]).saved c3Servers (fun _ => [])
        (fun _ => []) []).servers.getD 0 default).cluster_id
      = ((clusterServers (mkRat 7 10) none c3Servers (fun _ => [mkRat 1 1])
          (fun _ => [mkRat 1 1]) [0]).servers.getD 0 default).cluster_id :=
  ⟨(c3_idempotent_resume (mkRat 7 10) c3Servers (fun _ => [mkRat 1 1])
      (fun _ => [mkRat 1 1]) (fun _ => []) (fun _ => []) [0] []
      (by decide)).1,
   (c3_idempotent_resume (mkRat 7 10) c3Servers (fun _ => [mkRat 1 1])
      (fun _ => [mkRat 1 1]) (fun _ => []) (fun _ => []) [0] []
      (by decide)).2.2.2.1 0 (by decide)⟩

theorem clusterServers_compute_cluster_data (θ : ℚ) (servers : List SRec)
    (tv dv : Nat → List ℚ) (ord : List Nat) :
    (clusterServers θ none servers tv dv ord).cluster_data
      = (buildLoop servers 0
          (phase2 θ servers tv dv ord (phase1 θ tv servers.length).1)
          [] []).2.2 := rfl

theorem upsertMember_members_perm (cd : List (Nat × ClusterInfo)) (cid : Nat)
    (ename sid : String) :
    ((upsertMember cd cid ename sid).map (fun p => p.2.servers)).flatten.Perm
      ((cd.map (fun p => p.2.servers)).flatten ++ [sid]) := by
  induction cd with
  | nil => simp [upsertMember]
  | cons p rest ih =>
    obtain ⟨k, v⟩ := p
    by_cases h : k = cid
    · simp only [upsertMember, if_pos h, List.map_cons, List.flatten_cons]
      rw [List.append_assoc, List.append_assoc]
      exact List.Perm.append_left _ List.perm_append_comm
    · simp only [upsertMember, if_neg h, List.map_cons, List.flatten_cons]
      rw [List.append_assoc]
      exact List.Perm.append_left _ ih

theorem buildLoop_members_perm (l : List SRec) :
    ∀ (i0 : Nat) (m : CMap) (cl : List (String × Nat))
      (cd : List (Nat × ClusterInfo)),
    ((buildLoop l i0 m cl cd).2.2.map (fun p => p.2.servers)).flatten.Perm
      ((cd.map (fun p => p.2.servers)).flatten
        ++ l.map (fun s => s.server_id)) := by
  induction l with
  | nil =>
    intro i0 m cl cd
    simp [buildLoop]
  | cons s rest ih =>
    intro i0 m cl cd
    rw [buildLoop_cons]
    refine (ih (i0 + 1) m (dictPut cl s.server_id ((m i0).getD 0))
      (upsertMember cd ((m i0).getD 0)
        ((extract_entity_name s.title).toLower) s.server_id)).trans ?_
    refine (List.Perm.append_right _
      (upsertMember_members_perm cd ((m i0).getD 0)
        ((extract_entity_name s.title).toLower) s.server_id)).trans ?_
    rw [List.append_assoc]
    simp

/-- C4 (amended): on every computing run (no `clustering` checkpoint present),
the member lists of `cluster_data` are a permutation of the input server ids:
with globally unique ids, every input record appears in the member list of
exactly one cluster (counted once), none is omitted, and the union of all
member lists is exactly the set of input ids.  The restore path is excluded:
it copies `cluster_data` verbatim from the checkpoint (see the C4
counterexample and C9). -/
theorem c4_partition_amended (θ : ℚ) (servers : List SRec)
    (tv dv : Nat → List ℚ) (ord : List Nat)
    (hN : (servers.map (fun s => s.server_id)).Nodup) :
    ((clusterServers θ none servers tv dv ord).cluster_data.map
        (fun p => p.2.servers)).flatten.Perm
      (servers.map (fun s => s.server_id)) ∧
    ∀ sid ∈ servers.map (fun s => s.server_id),
      ((clusterServers θ none servers tv dv ord).cluster_data.map
        (fun p => p.2.servers)).flatten.count sid = 1 := by
  have hperm : ((clusterServers θ none servers tv dv ord).cluster_data.map
        (fun p => p.2.servers)).flatten.Perm
      (servers.map (fun s => s.server_id)) := by
    rw [clusterServers_compute_cluster_data]
    have := buildLoop_members_perm servers 0
      (phase2 θ servers tv dv ord (phase1 θ tv servers.length).1) [] []
    simpa using this
  refine ⟨hperm, ?_⟩
  intro sid hsid
  rw [hperm.count_eq]
  exact List.count_eq_one_of_mem hN hsid

theorem c4_partition_amended_witness :
    ((clusterServers (mkRat 7 10) none c3Servers (fun _ => [mkRat 1 1])
        (fun _ => [mkRat 1 1]) [0]).cluster_data.map
        (fun p => p.2.servers)).flatten.Perm
      (c3Servers.map (fun s => s.server_id)) ∧
    ∀ sid ∈ c3Servers.map (fun s => s.server_id),
      ((clusterServers (mkRat 7 10) none c3Servers (fun _ => [mkRat 1 1])
        (fun _ => [mkRat 1 1]) [0]).cluster_data.map
        (fun p => p.2.servers)).flatten.count sid = 1 :=
  c4_partition_amended (mkRat 7 10) c3Servers (fun _ => [mkRat 1 1])
    (fun _ => [mkRat 1 1]) [0] (by decide)

/-- C9: the checkpoint-restore gap.  When `cluster_servers` restores from a
`clustering` checkpoint, an input record whose `server_id` is not a key of the
restored `clusters` map silently gets `cluster_id = None`: no error is raised
(the restore path is total) and no `cluster_data` entry is created for it, so
the restore path does not guarantee that every input record receives a
cluster. -/
theorem c9_restore_gap (θ : ℚ) (cache : Cached) (servers : List SRec)
    (tv dv : Nat → List ℚ) (ord : List Nat) (i : Nat) (hi : i < servers.length)
    (hmiss : dictGet? cache.clusters ((servers.getD i default).server_id) = none) :
    ((clusterServers θ (some cache) servers tv dv ord).servers.getD i
        default).cluster_id = none ∧
    (clusterServers θ (some cache) servers tv dv ord).cluster_data
      = cache.cluster_data := by
  refine ⟨?_, rfl⟩
  rw [clusterServers_restore_servers_getD θ cache servers tv dv ord i hi]
  exact hmiss

theorem c9_restore_gap_witness :
    ((clusterServers (mkRat 7 10) (some c9Cache) [⟨"s", "T", "D", none⟩]
        (fun _ => [mkRat 1 1]) (fun _ => [mkRat 1 1]) [0]).servers.getD 0
        default).cluster_id = none ∧
    (clusterServers (mkRat 7 10) (some c9Cache) [⟨"s", "T", "D", none⟩]
        (fun _ => [mkRat 1 1]) (fun _ => [mkRat 1 1]) [0]).cluster_data
      = c9Cache.cluster_data :=
  c9_restore_gap (mkRat 7 10) c9Cache [⟨"s", "T", "D", none⟩]
    (fun _ => [mkRat 1 1]) (fun _ => [mkRat 1 1]) [0] 0 (by decide) (by rfl)

/-! ## Similarity ranking lemmas -/

theorem entryScore_entryOf (srv : SRec) (sim : ℚ) :
    entryScore (entryOf srv sim) = sim := rfl

theorem combSim_bounds (tv dv : Nat → List ℚ) (ti i : Nat)
    (hbt : 0 ≤ dotQ (tv ti) (tv i) ∧ dotQ (tv ti) (tv i) ≤ 1)
    (hbd : 0 ≤ dotQ (dv ti) (dv i) ∧ dotQ (dv ti) (dv i) ≤ 1) :
    0 ≤ combSim tv dv ti i ∧ combSim tv dv ti i ≤ 1 := by
  obtain ⟨h1, h2⟩ := hbt
  obtain ⟨h3, h4⟩ := hbd
  unfold combSim
  have e1 : (mkRat 3 5 : ℚ) = 3/5 := by
    norm_num [Rat.mkRat_eq_div]
  have e2 : (mkRat 2 5 : ℚ) = 2/5 := by
    norm_num [Rat.mkRat_eq_div]
  rw [e1, e2]
  constructor <;> nlinarith

theorem descBy_trans (a b c : Nat × ℚ) (h1 : descBy a b = true)
    (h2 : descBy b c = true) : descBy a c = true := by
  simp only [descBy, decide_eq_true_iff] at h1 h2 ⊢
  exact le_trans h2 h1

theorem descBy_total (a b : Nat × ℚ) : (descBy a b || descBy b a) = true := by
  simp only [descBy, Bool.or_eq_true, decide_eq_true_iff]
  exact le_total b.2 a.2

/-- C7: for every known server id and every `top_n`, `get_similar_servers`
returns at most `top_n` results, sorted in descending `similarity_score`
order, and every returned `similarity_score` lies in `[0, 1]` (given that
the externally computed cosine similarities, i.e. the pairwise dot products
of the normalized non-negative vectors, lie in `[0, 1]`). -/
theorem c7_similarity_ranking (servers : List SRec) (tv dv : Nat → List ℚ)
    (sid : String) (top_n : Nat) (res : List (List (String × JVal)))
    (hbt : ∀ i j, 0 ≤ dotQ (tv i) (tv j) ∧ dotQ (tv i) (tv j) ≤ 1)
    (hbd : ∀ i j, 0 ≤ dotQ (dv i) (dv j) ∧ dotQ (dv i) (dv j) ≤ 1)
    (hres : get_similar_servers servers tv dv sid top_n = some res) :
    res.length ≤ top_n ∧
    res.Pairwise (fun a b => entryScore b ≤ entryScore a) ∧
    ∀ e ∈ res, 0 ≤ entryScore e ∧ entryScore e ≤ 1 := by
  unfold get_similar_servers at hres
  cases hfi : servers.findIdx? (fun s => decide (s.server_id = sid)) with
  | none =>
    rw [hfi] at hres
    cases hres
  | some ti =>
    rw [hfi] at hres
    simp only [Option.some_inj] at hres
    subst hres
    set cands :=
      if ((List.range servers.length).filter (fun i =>
          decide ((servers.getD i default).cluster_id
              = (servers.getD ti default).cluster_id
            ∧ (servers.getD i default).server_id ≠ sid))).isEmpty then
        (List.range servers.length).filter (fun i =>
          decide ((servers.getD i default).server_id ≠ sid))
      else
        (List.range servers.length).filter (fun i =>
          decide ((servers.getD i default).cluster_id
              = (servers.getD ti default).cluster_id
            ∧ (servers.getD i default).server_id ≠ sid))
      with hcands
    refine ⟨?_, ?_, ?_⟩
    · rw [List.length_map]
      exact List.length_take_le _ _
    · have hsorted := List.sorted_mergeSort descBy_trans descBy_total
        (cands.map (fun i => (i, combSim tv dv ti i)))
      have htake := hsorted.sublist (List.take_sublist top_n _)
      exact htake.map _ (fun a b hab => by
        rw [entryScore_entryOf, entryScore_entryOf]
        simpa [descBy] using hab)
    · intro e he
      obtain ⟨p, hp, hpe⟩ := List.mem_map.mp he
      have hp' : p ∈ (cands.map
          (fun i => (i, combSim tv dv ti i))).mergeSort descBy :=
        List.mem_of_mem_take hp
      have hp'' : p ∈ cands.map (fun i => (i, combSim tv dv ti i)) :=
        (List.mergeSort_perm _ descBy).mem_iff.mp hp'
      obtain ⟨i, _, hip⟩ := List.mem_map.mp hp''
      have hb := combSim_bounds tv dv ti i (hbt ti i) (hbd ti i)
      rw [← hpe, ← hip, entryScore_entryOf]
      exact hb

theorem c7_similarity_ranking_witness :
    ((get_similar_servers c7Servers (fun _ => [mkRat 1 1])
        (fun _ => [mkRat 1 1]) "a" 3).getD []).length ≤ 3 ∧
    ((get_similar_servers c7Servers (fun _ => [mkRat 1 1])
        (fun _ => [mkRat 1 1]) "a" 3).getD []).Pairwise
      (fun a b => entryScore b ≤ entryScore a) ∧
    ∀ e ∈ (get_similar_servers c7Servers (fun _ => [mkRat 1 1])
        (fun _ => [mkRat 1 1]) "a" 3).getD [],
      0 ≤ entryScore e ∧ entryScore e ≤ 1 :=
  c7_similarity_ranking c7Servers (fun _ => [mkRat 1 1])
    (fun _ => [mkRat 1 1]) "a" 3 _
    (fun i j => ⟨of_decide_eq_true (by with_unfolding_all rfl),
      of_decide_eq_true (by with_unfolding_all rfl)⟩)
    (fun i j => ⟨of_decide_eq_true (by with_unfolding_all rfl),
      of_decide_eq_true (by with_unfolding_all rfl)⟩)
    (of_decide_eq_true (by with_unfolding_all rfl))

/-- C8 (amended): when the target's cluster contains no other member, the
fallback branch of `get_similar_servers` fires: it scans all other servers
with the same combined `0.6*title + 0.4*description` metric and returns the
global top N — but, contrary to the claim, nothing marks the results as
cross-cluster: each returned dict carries exactly the four standard fields
`server_id`, `title`, `description`, `similarity_score`, the same shape the
same-cluster branch produces. -/
theorem c8_singleton_fallback_amended (servers : List SRec)
    (tv dv : Nat → List ℚ) (sid : String) (top_n ti : Nat)
    (hfi : servers.findIdx? (fun s => decide (s.server_id = sid)) = some ti)
    (hsingle : ∀ i ∈ List.range servers.length,
      (servers.getD i default).server_id ≠ sid →
      (servers.getD i default).cluster_id
        ≠ (servers.getD ti default).cluster_id) :
    get_similar_servers servers tv dv sid top_n
      = some (globalTopN servers tv dv sid ti top_n) ∧
    ∀ e ∈ globalTopN servers tv dv sid ti top_n,
      e.map (fun kv => kv.1)
        = ["server_id", "title", "description", "similarity_score"] := by
  have hmates : (List.range servers.length).filter (fun i =>
      decide ((servers.getD i default).cluster_id
          = (servers.getD ti default).cluster_id
        ∧ (servers.getD i default).server_id ≠ sid)) = [] := by
    rw [List.filter_eq_nil_iff]
    intro i hi
    simp only [decide_eq_true_eq, not_and]
    intro hcl hne
    exact hsingle i hi hne hcl
  constructor
  · unfold get_similar_servers
    rw [hfi]
    simp only [hmates, List.isEmpty_nil, if_true]
    rfl
  · intro e he
    obtain ⟨p, _, hpe⟩ := List.mem_map.mp he
    rw [← hpe]
    rfl

/-- C8 counterexample to the claim as stated: with target `a` in a singleton
cluster the fallback fires, the returned result list is non-empty, and every
returned dict's key list is exactly
`[server_id, title, description, similarity_score]` — no field of any name
marks the results as cross-cluster. -/
theorem c8_singleton_fallback_unmarked :
    (∀ i ∈ List.range c8Servers.length,
      (c8Servers.getD i default).server_id ≠ "a" →
      (c8Servers.getD i default).cluster_id
        ≠ (c8Servers.getD 0 default).cluster_id) ∧
    (get_similar_servers c8Servers (fun _ => [mkRat 1 1])
        (fun _ => [mkRat 1 1]) "a" 3).isSome = true ∧
    ((get_similar_servers c8Servers (fun _ => [mkRat 1 1])
        (fun _ => [mkRat 1 1]) "a" 3).getD []).length = 2 ∧
    ∀ e ∈ (get_similar_servers c8Servers (fun _ => [mkRat 1 1])
        (fun _ => [mkRat 1 1]) "a" 3).getD [],
      e.map (fun kv => kv.1)
        = ["server_id", "title", "description", "similarity_score"] :=
  of_decide_eq_true (by with_unfolding_all rfl)

theorem c8_singleton_fallback_amended_witness :
    get_similar_servers c8Servers (fun _ => [mkRat 1 1])
        (fun _ => [mkRat 1 1]) "a" 3
      = some (globalTopN c8Servers (fun _ => [mkRat 1 1])
          (fun _ => [mkRat 1 1]) "a" 0 3) ∧
    ∀ e ∈ globalTopN c8Servers (fun _ => [mkRat 1 1])
        (fun _ => [mkRat 1 1]) "a" 0 3,
      e.map (fun kv => kv.1)
        = ["server_id", "title", "description", "similarity_score"] :=
  c8_singleton_fallback_amended c8Servers (fun _ => [mkRat 1 1])
    (fun _ => [mkRat 1 1]) "a" 3 0 (by decide) (by decide)

theorem verifyStages_false_of_mem (s : Store) (stage : String)
    (hbad : stageBlobOk s stage = false) :
    ∀ L : List String, stage ∈ L → verifyStages s L = false := by
  intro L
  induction L with
  | nil => intro h; cases h
  | cons a rest ih =>
    intro h
    rcases List.mem_cons.mp h with h | h
    · subst h
      simp [verifyStages, hbad]
    · by_cases hok : stageBlobOk s a = true
      · simp [verifyStages, hok, ih h]
      · simp [verifyStages, hok]

theorem getProgress_reset (s : Store) :
    getProgress (reset_progress s) = initialProgress := rfl

/-- C5: if any stage recorded as completed has a missing or unparseable blob,
`verify_cache_integrity` returns false (the loop checks every completed stage
and stops at the first failure), and the startup hook of the next pipeline
invocation then resets progress, so that `get_progress` afterwards reports an
empty `completed_stages` list. -/
theorem c5_integrity_gate (s : Store) (stage : String)
    (hmem : stage ∈ (getProgress s).completed_stages)
    (hbad : stageBlobOk s stage = false) :
    verify_cache_integrity s = false ∧
    (getProgress (startupIntegrityCheck s)).completed_stages = [] := by
  have hv : verify_cache_integrity s = false :=
    verifyStages_false_of_mem s stage hbad _ hmem
  refine ⟨hv, ?_⟩
  have : startupIntegrityCheck s = reset_progress s := by
    simp [startupIntegrityCheck, hv]
  rw [this, getProgress_reset]
  rfl

theorem c5_integrity_gate_witness :
    verify_cache_integrity c5Store = false ∧
    (getProgress (startupIntegrityCheck c5Store)).completed_stages = [] :=
  c5_integrity_gate c5Store "data_loading" (by decide) (by rfl)

/-- C6: `get_progress` never fails: whatever the state of the backing store,
it returns a ledger, and whenever the progress file is absent or reading or
parsing it errors, the result is the initial state: no current stage, no
completed stages, zero counts. -/
theorem c6_get_progress_never_fails (s : Store)
    (h : s.progressFile = none ∨ s.progressFile = some PFile.bad) :
    getProgress s = initialProgress ∧
    (getProgress s).current_stage = none ∧
    (getProgress s).completed_stages = [] ∧
    (getProgress s).processed_count = 0 ∧
    (getProgress s).total_count = 0 := by
  rcases h with h | h <;> simp [getProgress, h, initialProgress]

theorem c6_get_progress_never_fails_witness :
    getProgress { progressFile := none, blobs := fun _ => none } = initialProgress ∧
    (getProgress { progressFile := none, blobs := fun _ => none }).current_stage = none ∧
    (getProgress { progressFile := none, blobs := fun _ => none }).completed_stages = [] ∧
    (getProgress { progressFile := none, blobs := fun _ => none }).processed_count = 0 ∧
    (getProgress { progressFile := none, blobs := fun _ => none }).total_count = 0 :=
  c6_get_progress_never_fails _ (Or.inl rfl)

/-- C10: ledger frame properties.  `update_progress` on a stage not yet
completed never changes `completed_stages`, and is a complete no-op (the store
is unchanged, nothing is written) when the stage is already completed;
`complete_stage` never changes `processed_count` or `total_count`; and neither
operation touches any stage blob. -/
theorem c10_ledger_frame (s : Store) (stage : String) (processed total : Nat)
    (now : String) :
    (stage ∉ (getProgress s).completed_stages →
      (getProgress (updateProgress s stage processed total now)).completed_stages
        = (getProgress s).completed_stages) ∧
    (stage ∈ (getProgress s).completed_stages →
      updateProgress s stage processed total now = s) ∧
    (getProgress (completeStage s stage now)).processed_count
      = (getProgress s).processed_count ∧
    (getProgress (completeStage s stage now)).total_count
      = (getProgress s).total_count ∧
    (updateProgress s stage processed total now).blobs = s.blobs ∧
    (completeStage s stage now).blobs = s.blobs := by
  refine ⟨?_, ?_, ?_, ?_, ?_, ?_⟩
  · intro hnot
    simp only [updateProgress]
    rw [if_neg hnot]
    rfl
  · intro hmem
    simp only [updateProgress]
    rw [if_pos hmem]
  · by_cases hmem : stage ∈ (getProgress s).completed_stages
    · simp only [completeStage]
      rw [if_pos hmem]
    · simp only [completeStage]
      rw [if_neg hmem]
      rfl
  · by_cases hmem : stage ∈ (getProgress s).completed_stages
    · simp only [completeStage]
      rw [if_pos hmem]
    · simp only [completeStage]
      rw [if_neg hmem]
      rfl
  · by_cases hmem : stage ∈ (getProgress s).completed_stages
    · simp only [updateProgress]
      rw [if_pos hmem]
    · simp only [updateProgress]
      rw [if_neg hmem]
  · by_cases hmem : stage ∈ (getProgress s).completed_stages
    · simp only [completeStage]
      rw [if_pos hmem]
    · simp only [completeStage]
      rw [if_neg hmem]

theorem c10_ledger_frame_witness :
    (getProgress (updateProgress c10Store "b" 5 6 "t")).completed_stages
      = (getProgress c10Store).completed_stages ∧
    updateProgress c10Store "a" 5 6 "t" = c10Store ∧
    (getProgress (completeStage c10Store "b" "t")).processed_count
      = (getProgress c10Store).processed_count :=
  ⟨(c10_ledger_frame c10Store "b" 5 6 "t").1 (by decide),
   (c10_ledger_frame c10Store "a" 5 6 "t").2.1 (by decide),
   (c10_ledger_frame c10Store "b" 5 6 "t").2.2.1⟩

end MCPCluster
